import Mathlib

/-!
Verification of the web-server repository: a shallow embedding of
`web_framework/web_framework.py` (Request, Response, Router, App) and
`web_server/async_web_server.py` (AsyncHTTPServer, HttpHandler) together with
proofs settling the specification claims.

Python values are embedded as follows: `bytes` become `List Nat` (each entry
below 256), `str` becomes `String`, dictionaries become insertion-ordered
association lists, and a raised exception becomes `Except.error` carrying the
exception class name.
-/

set_option maxRecDepth 8192
set_option linter.unusedVariables false
set_option linter.unnecessarySimpa false
set_option linter.unnecessarySeqFocus false

namespace WebServer

/-- Python bytes: a list of byte values. -/
abbrev Bytes := List Nat

/-- A raised Python exception, identified by its class name. -/
abbrev PyErr := String

/-- Python dict assignment `d[k] = v`: update the entry in place when the key
exists (insertion order is kept), otherwise append a fresh entry. -/
def dictSet (d : List (String × α)) (k : String) (v : α) : List (String × α) :=
  match d with
  | [] => [(k, v)]
  | (k', v') :: rest => if k' = k then (k, v) :: rest else (k', v') :: dictSet rest k v

/-- Python dict lookup `d[k]` (also `k in d` via `Option.isSome`). -/
def dictGet (d : List (String × α)) (k : String) : Option α :=
  match d with
  | [] => none
  | (k', v) :: rest => if k' = k then some v else dictGet rest k

/-- The ASCII whitespace characters removed by Python `str.strip()`. -/
def isPySpace (c : Char) : Bool :=
  c = ' ' || c = '\t' || c = '\n' || c = '\r' || c = Char.ofNat 11 || c = Char.ofNat 12

/-- Python `str.strip()` on the character list of a string. -/
def pyStrip (cs : List Char) : List Char :=
  ((cs.dropWhile isPySpace).reverse.dropWhile isPySpace).reverse

/-- Prepend a character to the first piece of a split result. -/
def consFirst (c : Char) : List (List Char) → List (List Char)
  | [] => [[c]]
  | l :: ls => (c :: l) :: ls

/-- Python `str.split(sep, maxsplit)` with a one-character separator; a budget of
`none` means unlimited splits.  Like Python, the result is never empty and keeps
empty pieces between adjacent separators. -/
def pySplit (sep : Char) : Option Nat → List Char → List (List Char)
  | some 0, cs => [cs]
  | _, [] => [[]]
  | budget, c :: rest =>
    if c = sep then
      [] :: pySplit sep (match budget with | some (n + 1) => some n | _ => none) rest
    else
      consFirst c (pySplit sep budget rest)

/-- Python `str.lower()` (ASCII range; header names in this system are ASCII). -/
def pyLower (cs : List Char) : List Char := cs.map Char.toLower

/-- Decimal digit bytes of a natural number (codes 48-57), most significant first. -/
def natDigits (n : Nat) : List Nat :=
  if n < 10 then [48 + n] else natDigits (n / 10) ++ [48 + n % 10]
termination_by n
decreasing_by
  have h0 : 0 < n := by omega
  exact Nat.div_lt_self h0 (by norm_num)

/-- Decimal rendering of a natural number, as Python `str(n)` / f-strings do. -/
def natRepr (n : Nat) : List Char := (natDigits n).map Char.ofNat

/-- Decimal rendering of a natural number as a `String`. -/
def natReprStr (n : Nat) : String := String.mk (natRepr n)

/-- Accumulate decimal digit byte values, as integer parsing does. -/
def parseDigits (acc : Nat) : List Nat → Nat
  | [] => acc
  | d :: rest => parseDigits (acc * 10 + (d - 48)) rest

/-- Test for an ASCII decimal digit character. -/
def isDigitChar (c : Char) : Bool := 48 ≤ c.toNat && c.toNat ≤ 57

/-- Python `int(string)`: whitespace is stripped, an optional sign is accepted,
and the remainder must be one or more ASCII digits. -/
def pyInt (s : String) : Except PyErr Int :=
  let cs := pyStrip s.data
  let signAndDigits : Int × List Char :=
    match cs with
    | [] => (1, [])
    | c :: rest =>
      if c = '-' then (-1, rest) else if c = '+' then (1, rest) else (1, c :: rest)
  let ds := signAndDigits.2
  if !ds.isEmpty && ds.all isDigitChar then
    .ok (signAndDigits.1 * (parseDigits 0 (ds.map Char.toNat) : Nat))
  else .error "ValueError"

/-- UTF-8 encoding of one Unicode scalar value (one character of a Python str). -/
def utf8EncodeChar (c : Char) : Bytes :=
  let n := c.toNat
  if n < 0x80 then [n]
  else if n < 0x800 then [0xC0 + n / 64, 0x80 + n % 64]
  else if n < 0x10000 then [0xE0 + n / 4096, 0x80 + (n / 64) % 64, 0x80 + n % 64]
  else [0xF0 + n / 262144, 0x80 + (n / 4096) % 64, 0x80 + (n / 64) % 64, 0x80 + n % 64]

/-- Python `str.encode("utf-8")`. -/
def strBytes (s : String) : Bytes := (s.data.map utf8EncodeChar).flatten

/-- Test for a UTF-8 continuation byte. -/
def isCont (b : Nat) : Bool := 0x80 ≤ b && b < 0xC0

/-- UTF-8 decoding (Python `bytes.decode("utf-8")`); `none` models a raised
`UnicodeDecodeError`.  Overlong encodings, surrogates and out-of-range values
are rejected, as CPython rejects them. -/
def utf8Decode : Bytes → Option (List Char)
  | [] => some []
  | b :: rest =>
    if b < 0x80 then
      (utf8Decode rest).map (fun cs => Char.ofNat b :: cs)
    else if b < 0xC2 then none
    else
      match rest with
      | [] => none
      | b2 :: rest2 =>
        if !isCont b2 then none
        else if b < 0xE0 then
          (utf8Decode rest2).map (fun cs => Char.ofNat ((b - 0xC0) * 64 + (b2 - 0x80)) :: cs)
        else
          match rest2 with
          | [] => none
          | b3 :: rest3 =>
            if !isCont b3 then none
            else if b < 0xF0 then
              let n := (b - 0xE0) * 4096 + (b2 - 0x80) * 64 + (b3 - 0x80)
              if n < 0x800 || (0xD800 ≤ n && n < 0xE000) then none
              else (utf8Decode rest3).map (fun cs => Char.ofNat n :: cs)
            else
              match rest3 with
              | [] => none
              | b4 :: rest4 =>
                if !isCont b4 then none
                else if b < 0xF5 then
                  let n := (b - 0xF0) * 262144 + (b2 - 0x80) * 4096
                    + (b3 - 0x80) * 64 + (b4 - 0x80)
                  if n < 0x10000 || 0x110000 ≤ n then none
                  else (utf8Decode rest4).map (fun cs => Char.ofNat n :: cs)
                else none

/-- Python `bytes.decode("utf-8")` returning a `String` or an exception. -/
def utf8DecodeStr (b : Bytes) : Except PyErr String :=
  match utf8Decode b with
  | some cs => .ok (String.mk cs)
  | none => .error "UnicodeDecodeError"

/-- The opening curly brace character (code 123). -/
def lbraceChar : Char := Char.ofNat 123

/-- The closing curly brace character (code 125). -/
def rbraceChar : Char := Char.ofNat 125

/-- Value of one hexadecimal digit character. -/
def hexVal (c : Char) : Option Nat :=
  if 48 ≤ c.toNat ∧ c.toNat ≤ 57 then some (c.toNat - 48)
  else if 97 ≤ c.toNat ∧ c.toNat ≤ 102 then some (c.toNat - 87)
  else if 65 ≤ c.toNat ∧ c.toNat ≤ 70 then some (c.toNat - 55)
  else none

/-- Python `urllib.parse.unquote_plus`, modelled per escape: a plus sign becomes
a space and a percent sign followed by two hex digits becomes the character with
that code; a malformed escape is kept literally.  (CPython groups consecutive
escaped bytes and UTF-8-decodes them; the two agree on single-byte escapes, and
no claim depends on multi-byte escape grouping.) -/
def unquote_plus : List Char → List Char
  | [] => []
  | '+' :: rest => ' ' :: unquote_plus rest
  | '%' :: c1 :: c2 :: rest =>
    match hexVal c1, hexVal c2 with
    | some h1, some h2 => Char.ofNat (16 * h1 + h2) :: unquote_plus rest
    | _, _ => '%' :: unquote_plus (c1 :: c2 :: rest)
  | c :: rest => c :: unquote_plus rest

/-- Split a character list at the first occurrence of a separator; `none` when
the separator does not occur.  The separator itself is dropped. -/
def splitFirst (sep : Char) : List Char → Option (List Char × List Char)
  | [] => none
  | c :: rest =>
    if c = sep then some ([], rest)
    else (splitFirst sep rest).map (fun p => (c :: p.1, p.2))

/-- Python `urllib.parse.parse_qsl` with default arguments: the query string is
split on ampersands; a piece with no equals sign, or with an empty raw value,
is dropped (`keep_blank_values=False` checks the value before unquoting); names
and values are unquoted. -/
def parse_qsl (qs : String) : List (String × String) :=
  (pySplit '&' none qs.data).filterMap fun part =>
    match splitFirst '=' part with
    | some (n, v) =>
      if v.isEmpty then none
      else some (String.mk (unquote_plus n), String.mk (unquote_plus v))
    | none => none

/-- Append a value to the list held under a key, as `parse_qs` builds its
result dictionary. -/
def dictAppend (d : List (String × List String)) (k : String) (v : String) :
    List (String × List String) :=
  match d with
  | [] => [(k, [v])]
  | (k', vs) :: rest =>
    if k' = k then (k', vs ++ [v]) :: rest else (k', vs) :: dictAppend rest k v

/-- Python `urllib.parse.parse_qs` with default arguments. -/
def parse_qs (qs : String) : List (String × List String) :=
  (parse_qsl qs).foldl (fun d kv => dictAppend d kv.1 kv.2) []

/-- JSON values as `json.loads` produces them.  An integer token becomes a
Python int (`jnum`); a token with a fraction or exponent becomes a Python
float, modelled by its exact decimal value `m * 10^e` (`jfloat`) — IEEE-754
rounding, overflow to infinity, and the sign of negative zero are not
modelled, and no claim depends on them; the non-strict constants `NaN`,
`Infinity` and `-Infinity`, accepted by `json.loads` by default, become
`jnan` and `jinf`. -/
inductive Jval
  | jnull
  | jbool (b : Bool)
  | jnum (n : Int)
  | jfloat (m : Int) (e : Int)
  | jnan
  | jinf (neg : Bool)
  | jstr (s : String)
  | jarr (elems : List Jval)
  | jobj (fields : List (String × Jval))

/-- Escaping of one character inside a JSON string literal (quote and
backslash; `ensure_ascii` escaping of non-ASCII characters is omitted, no
claim depends on it). -/
def jsonEscapeChar (c : Char) : List Char :=
  if c = '"' then ['\\', '"'] else if c = '\\' then ['\\', '\\'] else [c]

/-- Integer rendering with sign, for JSON serialization. -/
def intRepr (n : Int) : List Char :=
  if n < 0 then '-' :: natRepr n.natAbs else natRepr n.natAbs

/-- Strip factors of ten: returns the quotient and how many were stripped. -/
def stripTens (m : Nat) : Nat × Nat :=
  if h : m ≠ 0 ∧ m % 10 = 0 then
    let p := stripTens (m / 10)
    (p.1, p.2 + 1)
  else (m, 0)
termination_by m
decreasing_by
  exact Nat.div_lt_self (by omega) (by norm_num)

/-- Rendering of the float of exact decimal value `m * 10^e`, as `repr` of a
Python float does for values whose shortest round-trip decimal is that value
(every short literal): fixed notation when the decimal exponent is in
`[-4, 16)`, scientific notation with a sign and two-digit exponent otherwise;
`json.dumps` uses exactly this rendering for floats. -/
def floatRepr (m : Int) (e : Int) : List Char :=
  if m = 0 then ['0', '.', '0']
  else
    let st := stripTens m.natAbs
    let e1 : Int := e + st.2
    let ds := natRepr st.1
    let E : Int := (ds.length - 1 : Int) + e1
    let core : List Char :=
      if 0 ≤ e1 then ds ++ List.replicate e1.toNat '0' ++ ['.', '0']
      else if (e1 + ds.length : Int) > 0 then
        ds.take (ds.length - (-e1).toNat) ++ '.' :: ds.drop (ds.length - (-e1).toNat)
      else '0' :: '.' :: List.replicate ((-e1).toNat - ds.length) '0' ++ ds
    let sci : List Char :=
      (match ds with
       | [] => []
       | d :: rest => d :: (if rest = [] then [] else '.' :: rest))
      ++ 'e' :: (if E < 0 then '-' else '+')
      :: (let ea := natRepr E.natAbs
          if ea.length < 2 then '0' :: ea else ea)
    let body := if -4 ≤ E ∧ E < 16 then core else sci
    if m < 0 then '-' :: body else body

mutual

/-- Model of `json.dumps` with its default separators. -/
def json_dumps : Jval → List Char
  | .jnull => ['n', 'u', 'l', 'l']
  | .jbool true => ['t', 'r', 'u', 'e']
  | .jbool false => ['f', 'a', 'l', 's', 'e']
  | .jnum n => intRepr n
  | .jfloat m e => floatRepr m e
  | .jnan => ['N', 'a', 'N']
  | .jinf true => ['-', 'I', 'n', 'f', 'i', 'n', 'i', 't', 'y']
  | .jinf false => ['I', 'n', 'f', 'i', 'n', 'i', 't', 'y']
  | .jstr s => '"' :: (s.data.map jsonEscapeChar).flatten ++ ['"']
  | .jarr xs => '[' :: json_dumps_elems xs ++ [']']
  | .jobj fs => lbraceChar :: json_dumps_fields fs ++ [rbraceChar]

/-- Serialize the elements of a JSON array, separated by a comma and space. -/
def json_dumps_elems : List Jval → List Char
  | [] => []
  | [x] => json_dumps x
  | x :: y :: rest => json_dumps x ++ ',' :: ' ' :: json_dumps_elems (y :: rest)

/-- Serialize the fields of a JSON object, separated by a comma and space. -/
def json_dumps_fields : List (String × Jval) → List Char
  | [] => []
  | [(k, v)] => '"' :: (k.data.map jsonEscapeChar).flatten ++ '"' :: ':' :: ' ' :: json_dumps v
  | (k, v) :: f :: rest =>
    '"' :: (k.data.map jsonEscapeChar).flatten ++ '"' :: ':' :: ' ' :: json_dumps v
      ++ ',' :: ' ' :: json_dumps_fields (f :: rest)

end

/-- String form of `json.dumps`. -/
def json_dumps_str (v : Jval) : String := String.mk (json_dumps v)

/-- Whitespace skipped between JSON tokens. -/
def jsonSkipWs (cs : List Char) : List Char :=
  cs.dropWhile (fun c => c = ' ' || c = '\t' || c = '\n' || c = '\r')

/-- Parse the body of a JSON string literal (after the opening quote), returning
the decoded characters and the remainder after the closing quote.  As the
strict scanner does: a raw control character (below 0x20) is an error, only
the eight JSON escapes and `\uXXXX` are accepted, and a high surrogate escape
followed by a low surrogate escape combines into one supplementary character.
A lone surrogate escape denotes a Python str that has no UTF-8 encoding; it is
modelled by the null character, and no claim depends on it. -/
def jsonParseStringBody : List Char → Option (List Char × List Char)
  | [] => none
  | '"' :: rest => some ([], rest)
  | '\\' :: 'u' :: h1 :: h2 :: h3 :: h4 :: '\\' :: 'u' :: h5 :: h6 :: h7 :: h8 :: rest =>
    match hexVal h1, hexVal h2, hexVal h3, hexVal h4 with
    | some a, some b, some c, some d =>
      match hexVal h5, hexVal h6, hexVal h7, hexVal h8 with
      | some a2, some b2, some c2, some d2 =>
        let n1 := 4096 * a + 256 * b + 16 * c + d
        let n2 := 4096 * a2 + 256 * b2 + 16 * c2 + d2
        if 0xD800 ≤ n1 ∧ n1 < 0xDC00 ∧ 0xDC00 ≤ n2 ∧ n2 < 0xE000 then
          (jsonParseStringBody rest).map fun p =>
            (Char.ofNat (0x10000 + (n1 - 0xD800) * 1024 + (n2 - 0xDC00)) :: p.1, p.2)
        else
          (jsonParseStringBody ('\\' :: 'u' :: h5 :: h6 :: h7 :: h8 :: rest)).map fun p =>
            (Char.ofNat n1 :: p.1, p.2)
      | _, _, _, _ => none
    | _, _, _, _ => none
  | '\\' :: 'u' :: h1 :: h2 :: h3 :: h4 :: rest =>
    match hexVal h1, hexVal h2, hexVal h3, hexVal h4 with
    | some a, some b, some c, some d =>
      (jsonParseStringBody rest).map fun p =>
        (Char.ofNat (4096 * a + 256 * b + 16 * c + d) :: p.1, p.2)
    | _, _, _, _ => none
  | '\\' :: e :: rest =>
    let c? : Option Char :=
      if e = '"' then some '"' else if e = '\\' then some '\\'
      else if e = '/' then some '/' else if e = 'n' then some '\n'
      else if e = 't' then some '\t' else if e = 'r' then some '\r'
      else if e = 'b' then some (Char.ofNat 8) else if e = 'f' then some (Char.ofNat 12)
      else none
    match c? with
    | some c => (jsonParseStringBody rest).map fun p => (c :: p.1, p.2)
    | none => none
  | c :: rest =>
    if c.toNat < 0x20 then none
    else (jsonParseStringBody rest).map fun p => (c :: p.1, p.2)
termination_by cs => cs.length
decreasing_by all_goals simp <;> omega

/-- The integer part of a JSON number token: a single zero, or a nonzero digit
followed by digits — the grammar `(0|[1-9]\d*)` of the scanner's number
regex, which forbids leading zeros. -/
def jsonIntPart : List Char → Option (List Char × List Char)
  | [] => none
  | c :: rest =>
    if c = '0' then some (['0'], rest)
    else if isDigitChar c then
      let ds := rest.takeWhile isDigitChar
      some (c :: ds, rest.drop ds.length)
    else none

/-- The optional fraction of a number token: a dot followed by one or more
digits, consumed only when well formed (`(\.\d+)?` in the number regex). -/
def jsonFracPart : List Char → List Char × List Char
  | '.' :: rest =>
    match rest.takeWhile isDigitChar with
    | [] => ([], '.' :: rest)
    | ds => (ds, rest.drop ds.length)
  | cs => ([], cs)

/-- The optional exponent of a number token: `e` or `E`, an optional sign, one
or more digits, consumed only when well formed (`([eE][-+]?\d+)?`). -/
def jsonExpPart (cs : List Char) : Option Int × List Char :=
  match cs with
  | e :: rest =>
    if e = 'e' ∨ e = 'E' then
      match rest with
      | s :: rest2 =>
        if s = '+' ∨ s = '-' then
          match rest2.takeWhile isDigitChar with
          | [] => (none, cs)
          | ds => (some ((if s = '-' then -1 else 1)
                     * (parseDigits 0 (ds.map Char.toNat) : Nat)), rest2.drop ds.length)
        else
          match rest.takeWhile isDigitChar with
          | [] => (none, cs)
          | ds => (some ((parseDigits 0 (ds.map Char.toNat) : Nat) : Int), rest.drop ds.length)
      | [] => (none, cs)
    else (none, cs)
  | [] => (none, cs)

/-- One JSON number token after an optional leading minus: an int-only token
becomes a Python int, a token with a fraction or exponent becomes a float of
exact decimal value `m * 10^(exponent - fraction digits)`. -/
def jsonNumber (neg : Bool) (cs : List Char) : Option (Jval × List Char) :=
  match jsonIntPart cs with
  | none => none
  | some (ip, rest1) =>
    let fp := jsonFracPart rest1
    let ep := jsonExpPart fp.2
    let sgn : Int := if neg then -1 else 1
    match fp.1, ep.1 with
    | [], none => some (.jnum (sgn * (parseDigits 0 (ip.map Char.toNat) : Nat)), rest1)
    | fds, eopt =>
      let m : Int := sgn * (parseDigits 0 ((ip ++ fds).map Char.toNat) : Nat)
      let e : Int := (match eopt with | some ex => ex | none => 0) - fds.length
      some (.jfloat m e, ep.2)

mutual

/-- Fuel-driven recursive-descent parser for one JSON value, the model of
`json.loads`.  Returns the value and the unconsumed remainder. -/
def jsonParseVal : Nat → List Char → Option (Jval × List Char)
  | 0, _ => none
  | fuel + 1, cs =>
    match jsonSkipWs cs with
    | [] => none
    | c :: rest =>
      if c = '"' then
        (jsonParseStringBody rest).map fun p => (.jstr (String.mk p.1), p.2)
      else if c = '[' then
        match jsonSkipWs rest with
        | ']' :: rest2 => some (.jarr [], rest2)
        | _ => jsonParseElems fuel rest []
      else if c = lbraceChar then
        match jsonSkipWs rest with
        | r :: rest2 =>
          if r = rbraceChar then some (.jobj [], rest2) else jsonParseFields fuel rest []
        | [] => none
      else if c = '-' then
        match jsonNumber true rest with
        | some r => some r
        | none =>
          match rest with
          | 'I' :: 'n' :: 'f' :: 'i' :: 'n' :: 'i' :: 't' :: 'y' :: rest2 =>
            some (.jinf true, rest2)
          | _ => none
      else if isDigitChar c then
        jsonNumber false (c :: rest)
      else if c = 'N' then
        match rest with
        | 'a' :: 'N' :: rest2 => some (.jnan, rest2)
        | _ => none
      else if c = 'I' then
        match rest with
        | 'n' :: 'f' :: 'i' :: 'n' :: 'i' :: 't' :: 'y' :: rest2 => some (.jinf false, rest2)
        | _ => none
      else if c = 'n' then
        match rest with
        | 'u' :: 'l' :: 'l' :: rest2 => some (.jnull, rest2)
        | _ => none
      else if c = 't' then
        match rest with
        | 'r' :: 'u' :: 'e' :: rest2 => some (.jbool true, rest2)
        | _ => none
      else if c = 'f' then
        match rest with
        | 'a' :: 'l' :: 's' :: 'e' :: rest2 => some (.jbool false, rest2)
        | _ => none
      else none

/-- Parse the remaining elements of a JSON array (after at least one value is
known to follow). -/
def jsonParseElems (fuel : Nat) (cs : List Char) (acc : List Jval) :
    Option (Jval × List Char) :=
  match fuel with
  | 0 => none
  | fuel + 1 =>
    match jsonParseVal fuel cs with
    | none => none
    | some (v, rest) =>
      match jsonSkipWs rest with
      | ',' :: rest2 => jsonParseElems fuel rest2 (acc ++ [v])
      | ']' :: rest2 => some (.jarr (acc ++ [v]), rest2)
      | _ => none

/-- Parse the remaining fields of a JSON object (after at least one field is
known to follow). -/
def jsonParseFields (fuel : Nat) (cs : List Char) (acc : List (String × Jval)) :
    Option (Jval × List Char) :=
  match fuel with
  | 0 => none
  | fuel + 1 =>
    match jsonSkipWs cs with
    | '"' :: rest =>
      match jsonParseStringBody rest with
      | none => none
      | some (k, rest2) =>
        match jsonSkipWs rest2 with
        | ':' :: rest3 =>
          match jsonParseVal fuel rest3 with
          | none => none
          | some (v, rest4) =>
            match jsonSkipWs rest4 with
            | ',' :: rest5 => jsonParseFields fuel rest5 (acc ++ [(String.mk k, v)])
            | r :: rest5 =>
              if r = rbraceChar then some (.jobj (acc ++ [(String.mk k, v)]), rest5)
              else none
            | [] => none
        | _ => none
    | _ => none

end

/-- Model of `json.loads`: parse one JSON value and require only whitespace to
follow; `none` models a raised `json.JSONDecodeError`. -/
def json_loads (s : String) : Option Jval :=
  match jsonParseVal (s.data.length + 1) s.data with
  | some (v, rest) => if jsonSkipWs rest = [] then some v else none
  | none => none

/-- Split at the first occurrence of a separator, keeping everything when the
separator is absent. -/
def takeUntilChar (sep : Char) (cs : List Char) : List Char × List Char :=
  match splitFirst sep cs with
  | some p => p
  | none => (cs, [])

/-- Split a character list at its last slash: `p = before ++ slash ++ after`
with no slash in `after`; `none` when there is no slash. -/
def splitLastSlash : List Char → Option (List Char × List Char)
  | [] => none
  | c :: rest =>
    match splitLastSlash rest with
    | some (b, a) => some (c :: b, a)
    | none => if c = '/' then some ([], rest) else none

/-- The parameter split `urlparse` applies to the path: a semicolon in the last
path segment (or anywhere, when there is no slash) cuts the path there. -/
def urlSplitParams (p : List Char) : List Char :=
  match splitLastSlash p with
  | some (before, after) =>
    (match splitFirst ';' after with
     | some (a, _) => before ++ '/' :: a
     | none => p)
  | none =>
    (match splitFirst ';' p with
     | some (a, _) => a
     | none => p)

/-- Model of `urllib.parse.urlparse` restricted to what the server consumes,
for request targets in origin form (no scheme, no authority): the fragment is
cut at the first hash sign, the query at the first question mark, and path
parameters at a semicolon in the final segment.  Returns `(path, query)`. -/
def url_split (target : String) : String × String :=
  let nofrag := (takeUntilChar '#' target.data).1
  let pq := takeUntilChar '?' nofrag
  (String.mk (urlSplitParams pq.1), String.mk pq.2)

/-- The ASGI-style scope dictionary built by `HttpHandler.parse_http_request`. -/
structure Scope where
  type : String
  http_version : String
  method : String
  path : String
  query_string : Bytes
  headers : List (Bytes × Bytes)
  raw_path : Bytes
  body : Bytes

/-- The normalized request of `web_framework.Request`. -/
structure Request where
  path : String
  method : String
  headers : List (String × String)
  query_params : List (String × List String)
  body : Bytes
  path_params : List (String × String)
  json : Option Jval

/-- Substring test, Python `needle in haystack` on strings. -/
def strContains (hay needle : String) : Bool :=
  (List.range (hay.data.length + 1)).any (fun i => needle.data.isPrefixOf (hay.data.drop i))

/-- Decode the byte pairs of the scope's header list, as the dictionary
comprehension in `Request.__init__` does. -/
def decodeHeaderPairs : List (Bytes × Bytes) → Except PyErr (List (String × String))
  | [] => .ok []
  | (k, v) :: rest => do
    let ks ← utf8DecodeStr k
    let vs ← utf8DecodeStr v
    let tail ← decodeHeaderPairs rest
    .ok ((ks, vs) :: tail)

/-- Build a Python dict from key-value pairs in order (later duplicates win). -/
def pairsToDict (ps : List (String × String)) : List (String × String) :=
  ps.foldl (fun d kv => dictSet d kv.1 kv.2) []

/-- Model of `Request.__init__`.  The body is decoded and JSON-parsed only when
the content-type header contains the string `application/json`; a JSON parse
failure is caught (`except json.JSONDecodeError`) and leaves `json = none`, but
a `UnicodeDecodeError` from `body.decode("utf-8")` is not caught and escapes. -/
def Request.init (scope : Scope) : Except PyErr Request := do
  let hpairs ← decodeHeaderPairs scope.headers
  let headers := pairsToDict hpairs
  let qstr ← utf8DecodeStr scope.query_string
  let json ←
    match dictGet headers "content-type" with
    | some ct =>
      if strContains ct "application/json" then do
        let bodyStr ← utf8DecodeStr scope.body
        pure (json_loads bodyStr)
      else pure (none : Option Jval)
    | none => pure (none : Option Jval)
  .ok { path := scope.path, method := scope.method, headers := headers,
        query_params := parse_qs qstr, body := scope.body, path_params := [], json := json }

/-- The possible Python values passed as the `body` argument of `Response`. -/
inductive PyVal
  | pstr (s : String)
  | pbytes (b : Bytes)
  | pdict (fields : List (String × Jval))
  | plist (elems : List Jval)

/-- The outgoing response of `web_framework.Response` after construction. -/
structure Response where
  body : Bytes
  status_code : Nat
  reason_phrase : String
  headers : List (String × String)
  content_type : String

/-- Model of `Response.__init__`: a Content-Type entry is added when no key
lower-cases to `content-type`; a str body is UTF-8 encoded; a dict or list body
is JSON-serialized with `Content-Type` then set to `application/json`; finally
`Content-Length` is set to the byte length of the final body. -/
def Response.init (body : PyVal) (status_code : Nat) (reason_phrase : String)
    (headers0 : Option (List (String × String))) (content_type : String) : Response :=
  let hs0 := match headers0 with | some h => h | none => []
  let hs1 :=
    if (hs0.map (fun kv => String.mk (pyLower kv.1.data))).contains "content-type"
    then hs0 else dictSet hs0 "Content-Type" content_type
  let bodyAndHs : Bytes × List (String × String) :=
    match body with
    | .pstr s => (strBytes s, hs1)
    | .pbytes b => (b, hs1)
    | .pdict fs =>
      (strBytes (json_dumps_str (.jobj fs)), dictSet hs1 "Content-Type" "application/json")
    | .plist xs =>
      (strBytes (json_dumps_str (.jarr xs)), dictSet hs1 "Content-Type" "application/json")
  { body := bodyAndHs.1, status_code := status_code, reason_phrase := reason_phrase,
    headers := dictSet bodyAndHs.2 "Content-Length" (natReprStr bodyAndHs.1.length),
    content_type := content_type }

/-- One piece of the compiled route pattern: a literal character, or a named
group compiled from a placeholder (regex `[^/]+`, one or more non-slash
characters). -/
inductive Chunk
  | lit (c : Char)
  | param (name : String)

/-- First character of a placeholder identifier (regex `[a-zA-Z_]`). -/
def isIdentStart (c : Char) : Bool := c.isAlpha || c = '_'

/-- Later character of a placeholder identifier (regex `[a-zA-Z0-9_]`). -/
def isIdentChar (c : Char) : Bool := c.isAlphanum || c = '_'

/-- Scan a maximal run of identifier characters, returning the run and the
remainder. -/
def scanIdent : List Char → List Char × List Char
  | [] => ([], [])
  | c :: rest =>
    if isIdentChar c then
      let p := scanIdent rest
      (c :: p.1, p.2)
    else ([], c :: rest)

/-- The remainder returned by `scanIdent` is no longer than the input. -/
theorem scanIdent_snd_le (cs : List Char) : (scanIdent cs).2.length ≤ cs.length := by
  induction cs with
  | nil => simp [scanIdent]
  | cons c rest ih =>
    simp only [scanIdent]
    split
    · simpa using Nat.le_succ_of_le ih
    · simp

/-- Recognize one placeholder of the template grammar right after its opening
brace: an identifier (letter or underscore, then letters, digits or
underscores) followed by a closing brace.  Returns the name and the remainder
after the closing brace. -/
def parseBrace : List Char → Option (String × List Char)
  | [] => none
  | d :: rest2 =>
    if isIdentStart d then
      match scanIdent rest2 with
      | (ident, e :: rest3) =>
        if e = rbraceChar then some (String.mk (d :: ident), rest3) else none
      | (_, []) => none
    else none

/-- The remainder returned by a successful `parseBrace` is strictly shorter
than the input. -/
theorem parseBrace_length {cs rest : List Char} {n : String}
    (h : parseBrace cs = some (n, rest)) : rest.length < cs.length := by
  match cs with
  | [] => simp [parseBrace] at h
  | d :: rest2 =>
    have hle := scanIdent_snd_le rest2
    simp only [parseBrace] at h
    split at h
    · split at h
      · rename_i heq
        split at h
        · cases h
          rw [heq] at hle
          simp at hle
          simp
          omega
        · cases h
      · cases h
    · cases h

/-- Compilation of a path template in `Router._add_route`: each occurrence of a
braced identifier becomes a named group matching one or more non-slash
characters (the regex substitution in the source); every other character stands
for itself, and a brace that does not open a well-formed placeholder is kept as
a literal with scanning resuming at the next character, exactly as `re.sub`
resumes after a failed match attempt. -/
def compile_template : List Char → List Chunk
  | [] => []
  | c :: rest =>
    if c = lbraceChar then
      match hp : parseBrace rest with
      | some (name, rest3) => .param name :: compile_template rest3
      | none => .lit c :: compile_template rest
    else .lit c :: compile_template rest
termination_by cs => cs.length
decreasing_by
  · have := parseBrace_length hp
    simp
    omega
  · simp
  · simp

mutual

/-- Backtracking matcher for the compiled pattern, anchored at both ends as the
compiled regex is wrapped in `^...$`: a literal consumes its own character and a
named group consumes between one and all of the next non-slash characters,
longest first (regex `[^/]+` is greedy with backtracking).  On success returns
the group bindings in order of appearance (`match.groupdict()`). -/
def matchChunks : List Chunk → List Char → Option (List (String × String))
  | [], [] => some []
  | [], _ :: _ => none
  | .lit _ :: _, [] => none
  | .lit c :: ks, x :: xs => if x = c then matchChunks ks xs else none
  | .param n :: ks, xs => tryParam n ks xs (xs.takeWhile (fun c => c ≠ '/')).length
termination_by ks xs => (ks.length + xs.length, 0)
decreasing_by
  all_goals apply Prod.Lex.left
  all_goals simp
  all_goals omega

/-- Try group widths from `k` characters down to one. -/
def tryParam (n : String) (ks : List Chunk) (xs : List Char) : Nat → Option (List (String × String))
  | 0 => none
  | k + 1 =>
    match matchChunks ks (xs.drop (k + 1)) with
    | some ps => some ((n, String.mk (xs.take (k + 1))) :: ps)
    | none => tryParam n ks xs k
termination_by k => (ks.length + xs.length, k + 1)
decreasing_by
  · rcases Nat.eq_zero_or_pos xs.length with h | h
    · have hx : xs = [] := List.eq_nil_of_length_eq_zero h
      subst hx
      simp
      apply Prod.Lex.right
      omega
    · apply Prod.Lex.left
      simp
      omega
  · apply Prod.Lex.right
    omega

end

/-- Matching of a registered template against a concrete path, as
`pattern.match(request.path)` in `Router.dispatch` (the pattern compiled by
`Router._add_route` is anchored with a leading caret and trailing dollar). -/
def route_match (template path : String) : Option (List (String × String)) :=
  matchChunks (compile_template template.data) path.data

/-- A handler: an async function from Request to Response; a raised exception
is an `Except.error`. -/
abbrev Handler := Request → Except PyErr Response

/-- The router's route table: method to list of compiled routes, in
registration order. -/
abbrev RouterT := List (String × List (String × Handler))

/-- Model of `Router._add_route`: `setdefault(method, []).append(...)`. -/
def add_route (router : RouterT) (method template : String) (h : Handler) : RouterT :=
  match dictGet router method with
  | some lst => dictSet router method (lst ++ [(template, h)])
  | none => router ++ [(method, [(template, h)])]

/-- The response `Response(status_code=404, reason_phrase="Not Found")` with
the constructor's default body, headers and content type. -/
def response404 : Response :=
  Response.init (.pstr "") 404 "Not Found" none "application/json"

/-- The route-list loop of `Router.dispatch`: the first pattern that matches
wins; its group dictionary is stored in `path_params` before the handler runs. -/
def dispatch_loop : List (String × Handler) → Request → Except PyErr Response
  | [], _ => .ok response404
  | (t, h) :: rest, req =>
    match route_match t req.path with
    | some binds => h { req with path_params := binds }
    | none => dispatch_loop rest req

/-- Model of `Router.dispatch`.  There is no try/except here: an exception
raised by the handler propagates to the caller. -/
def Router.dispatch (router : RouterT) (req : Request) : Except PyErr Response :=
  match dictGet router req.method with
  | some lst => dispatch_loop lst req
  | none => .ok response404

/-- The transport-level response dictionary returned by `App.__call__`. -/
structure RespDict where
  status_code : Nat
  reason_phrase : String
  headers : List (String × String)
  body : Bytes

/-- Model of `App.__call__`: for an http scope, build the Request, dispatch,
and return the response dictionary; exceptions from construction or dispatch
propagate.  For any other scope type the source builds a local dictionary but
falls through without returning it, so the call returns Python `None`,
modelled as `none`. -/
def app_call (router : RouterT) (scope : Scope) : Except PyErr (Option RespDict) :=
  if scope.type = "http" then do
    let req ← Request.init scope
    let resp ← Router.dispatch router req
    .ok (some ⟨resp.status_code, resp.reason_phrase, resp.headers, resp.body⟩)
  else .ok none

/-- Model of `asyncio.StreamReader.readline` on the remaining input: everything
up to and including the first newline byte; at end of stream the remaining
bytes (possibly empty) are returned without a newline.  Returns the line and
the rest of the stream. -/
def readline : Bytes → Bytes × Bytes
  | [] => ([], [])
  | b :: rest =>
    if b = 10 then ([10], rest)
    else
      let p := readline rest
      (b :: p.1, p.2)

/-- Reading a line never loses bytes: line plus remainder is the input. -/
theorem readline_length (bs : Bytes) :
    (readline bs).1.length + (readline bs).2.length = bs.length := by
  induction bs with
  | nil => simp [readline]
  | cons b rest ih =>
    simp only [readline]
    split
    · simp
      omega
    · simp
      omega

/-- Model of `asyncio.StreamReader.readexactly(n)`: a negative count raises
`ValueError`, a stream that ends before `n` bytes raises
`IncompleteReadError`, otherwise exactly `n` bytes are consumed. -/
def readexactly (n : Int) (input : Bytes) : Except PyErr Bytes :=
  if n < 0 then .error "ValueError"
  else if input.length < n.toNat then .error "IncompleteReadError"
  else .ok (input.take n.toNat)

/-- The Python value passed as the `body` argument of `send_http_response`:
the str default or a bytes body from a response dictionary. -/
inductive PyBody
  | bstr (s : String)
  | bbytes (b : Bytes)

/-- The status line rendered by `send_http_response`. -/
def statusLine (status_code : Nat) (reason_phrase : String) : String :=
  "HTTP/1.1 " ++ natReprStr status_code ++ " " ++ reason_phrase

/-- Model of `HttpHandler.send_http_response`, faithful to the source's
str/bytes confusion: when no headers are given, default headers are computed
from `body.encode("utf-8")` (raising `AttributeError` when the body is bytes),
and the body is then appended via `body.decode()` — raising `AttributeError`
when the body is a str (the default `""` is a str) and `UnicodeDecodeError`
when it is bytes that are not valid UTF-8.  On success, returns the bytes
written to the socket before it is closed. -/
def send_http_response (status_code : Nat) (reason_phrase : String)
    (headers0 : Option (List (String × String))) (body : PyBody) : Except PyErr Bytes := do
  let headers ←
    match headers0 with
    | some h => pure h
    | none => do
      let enc ←
        match body with
        | .bstr s => pure (strBytes s)
        | .bbytes _ => (.error "AttributeError" : Except PyErr Bytes)
      pure [("Content-Type", "text/plain"), ("Content-Length", natReprStr enc.length)]
  let bodyStr ←
    match body with
    | .bstr _ => (.error "AttributeError" : Except PyErr String)
    | .bbytes b => utf8DecodeStr b
  let response_lines :=
    statusLine status_code reason_phrase
      :: (headers.map (fun kv => kv.1 ++ ": " ++ kv.2) ++ ["", bodyStr])
  .ok (strBytes (String.intercalate "\r\n" response_lines))

/-- The header-reading loop of `parse_http_request`: lines are read until an
empty read (end of stream) or a bare CRLF; each line must split on its first
colon, the name is lower-cased and the value stripped.  Returns the header
dictionary and the unconsumed remainder of the stream. -/
def read_headers (acc : List (String × String)) (input : Bytes) :
    Except PyErr (List (String × String) × Bytes) :=
  let p := readline input
  if hstop : p.1 = [] ∨ p.1 = [13, 10] then .ok (acc, p.2)
  else do
    let lineStr ← utf8DecodeStr p.1
    match pySplit ':' (some 1) (pyStrip lineStr.data) with
    | [k, v] =>
      read_headers (dictSet acc (String.mk (pyLower k)) (String.mk (pyStrip v))) p.2
    | _ => .error "ValueError"
termination_by input.length
decreasing_by
  have h := readline_length input
  have hne : (readline input).1 ≠ [] := fun h0 => hstop (Or.inl h0)
  have hlen : (readline input).1.length ≠ 0 := by
    intro hl
    exact hne (List.eq_nil_of_length_eq_zero hl)
  omega

/-- The outcome of `parse_http_request`: a scope handed to the application, or
a refusal where a 400 response was already written and `None` returned. -/
inductive ParseResult
  | scope (s : Scope)
  | refused (written : Bytes)

/-- The body of the try block of `HttpHandler.parse_http_request`: read the
request line (an empty read means a closed stream: send 400 and return), split
it into method, target and version on at most two spaces, read the headers,
then read a body of `content-length` bytes unless that exceeds the maximum
(send 400 and return); finally assemble the scope, splitting the target with
`urlparse`.  Any raised exception passes to the caller (the except clause). -/
def parse_core (max_body_size : Nat) (input : Bytes) : Except PyErr ParseResult := do
  let p := readline input
  if p.1 = [] then
    let w ← send_http_response 400 "Bad Request" none (.bstr "")
    return .refused w
  else
    let lineStr ← utf8DecodeStr p.1
    match pySplit ' ' (some 2) (pyStrip lineStr.data) with
    | [m, target, v] => do
      let hs ← read_headers [] p.2
      let headers := hs.1
      let body ←
        match dictGet headers "content-length" with
        | some clStr => do
          let cl ← pyInt clStr
          if cl > (max_body_size : Int) then do
            let w ← send_http_response 400 "Bad Request" none (.bstr "")
            return .refused w
          else
            readexactly cl hs.2
        | none => pure ([] : Bytes)
      let targetStr := String.mk target
      let pq := url_split targetStr
      return .scope
        { type := "http", http_version := String.mk v, method := String.mk m,
          path := pq.1, query_string := strBytes pq.2,
          headers := headers.map (fun kv => (strBytes kv.1, strBytes kv.2)),
          raw_path := strBytes targetStr, body := body }
    | _ => .error "ValueError"

/-- Model of `HttpHandler.parse_http_request` with its enclosing try/except:
any exception raised in the body is caught, a 400 response is attempted, and
`None` (a refusal) is returned — but the attempt itself raises
`AttributeError` (str body has no `decode`), and that exception escapes. -/
def parse_http_request (max_body_size : Nat) (input : Bytes) : Except PyErr ParseResult :=
  match parse_core max_body_size input with
  | .ok r => .ok r
  | .error _ =>
    match send_http_response 400 "Bad Request" none (.bstr "") with
    | .ok w => .ok (.refused w)
    | .error e => .error e

/-- What one connection observes: either a complete byte string written before
the socket is closed, or a crash (an exception escaping `__handle_request`)
with nothing written. -/
inductive ConnResult
  | sent (written : Bytes)
  | crashed (e : PyErr)

/-- The except clause of `__handle_request`: attempt a 500 response with the
default (str) body; the attempt raises `AttributeError`, which escapes. -/
def send500Fallback : ConnResult :=
  match send_http_response 500 "Something went wrong!" none (.bstr "") with
  | .ok w => .sent w
  | .error e => .crashed e

/-- Model of `AsyncHTTPServer.__handle_request` for one connection: parse the
stream; on a parse refusal return (the 400 was already attempted); otherwise
call the application and send its response dictionary, falling back to a 500
attempt when the call or the send raises (a returned `None` makes the
`send_http_response(**response)` call raise `TypeError`, caught by the same
except clause). -/
def handle_request (router : RouterT) (max_body_size : Nat) (input : Bytes) : ConnResult :=
  match parse_http_request max_body_size input with
  | .error e => .crashed e
  | .ok (.refused w) => .sent w
  | .ok (.scope s) =>
    match app_call router s with
    | .ok (some resp) =>
      match send_http_response resp.status_code resp.reason_phrase
          (some resp.headers) (.bbytes resp.body) with
      | .ok w => .sent w
      | .error _ => send500Fallback
    | .ok none => send500Fallback
    | .error _ => send500Fallback

/-! ### Dictionary lemmas -/

/-- Looking up the key just assigned yields the assigned value. -/
theorem dictGet_dictSet_self (d : List (String × α)) (k : String) (v : α) :
    dictGet (dictSet d k v) k = some v := by
  induction d with
  | nil => simp [dictSet, dictGet]
  | cons kv rest ih =>
    obtain ⟨k', v'⟩ := kv
    simp only [dictSet]
    split
    · simp [dictGet]
    · simpa [dictGet, *] using ih

/-- Assigning one key does not change the lookup of a different key. -/
theorem dictGet_dictSet_ne (d : List (String × α)) (k k' : String) (v : α)
    (h : k ≠ k') : dictGet (dictSet d k v) k' = dictGet d k' := by
  induction d with
  | nil => simp [dictSet, dictGet, h]
  | cons kv rest ih =>
    obtain ⟨k0, v0⟩ := kv
    simp only [dictSet]
    split
    · rename_i hk
      subst hk
      simp [dictGet, h]
    · simp [dictGet, ih]

/-! ### C3: the Response constructor invariant -/

/-- C3: for every Response, after construction the headers contain a
Content-Length entry whose value is the decimal byte length of the final body;
and a dict or list body is serialized as JSON with the Content-Type header
forced to application/json — for every combination of body, headers and
content-type arguments. -/
theorem C3_response_invariant :
    (∀ (body : PyVal) (status : Nat) (reason : String)
        (hdrs : Option (List (String × String))) (ct : String),
      dictGet (Response.init body status reason hdrs ct).headers "Content-Length"
        = some (natReprStr (Response.init body status reason hdrs ct).body.length))
    ∧ (∀ (fs : List (String × Jval)) (status : Nat) (reason : String)
        (hdrs : Option (List (String × String))) (ct : String),
      dictGet (Response.init (.pdict fs) status reason hdrs ct).headers "Content-Type"
        = some "application/json"
      ∧ (Response.init (.pdict fs) status reason hdrs ct).body
        = strBytes (json_dumps_str (.jobj fs)))
    ∧ (∀ (xs : List Jval) (status : Nat) (reason : String)
        (hdrs : Option (List (String × String))) (ct : String),
      dictGet (Response.init (.plist xs) status reason hdrs ct).headers "Content-Type"
        = some "application/json"
      ∧ (Response.init (.plist xs) status reason hdrs ct).body
        = strBytes (json_dumps_str (.jarr xs))) := by
  refine ⟨?_, ?_, ?_⟩
  · intro body status reason hdrs ct
    cases body <;> simp [Response.init, dictGet_dictSet_self]
  · intro fs status reason hdrs ct
    constructor
    · simp only [Response.init]
      rw [dictGet_dictSet_ne _ _ _ _ (by decide)]
      exact dictGet_dictSet_self _ _ _
    · simp [Response.init]
  · intro xs status reason hdrs ct
    constructor
    · simp only [Response.init]
      rw [dictGet_dictSet_ne _ _ _ _ (by decide)]
      exact dictGet_dictSet_self _ _ _
    · simp [Response.init]

/-! ### C10: query parameters with empty values are dropped -/

/-- Unquoting a nonempty raw token yields a nonempty result. -/
theorem unquote_plus_ne_nil (cs : List Char) (h : cs ≠ []) : unquote_plus cs ≠ [] := by
  rw [unquote_plus.eq_def]
  split
  · exact absurd rfl h
  · simp
  · split <;> simp
  · simp

/-- Every value produced by the qsl split is a nonempty string. -/
theorem parse_qsl_value_ne (qs k v : String) (h : (k, v) ∈ parse_qsl qs) : v ≠ "" := by
  simp only [parse_qsl, List.mem_filterMap] at h
  obtain ⟨part, _, hf⟩ := h
  rcases hsplit : splitFirst '=' part with _ | ⟨n, raw⟩ <;> rw [hsplit] at hf <;>
    dsimp only at hf
  · cases hf
  · by_cases hraw : raw.isEmpty = true
    · rw [if_pos hraw] at hf
      cases hf
    · rw [if_neg hraw] at hf
      injection hf with h1
      injection h1 with hk hv
      subst hv
      have hne : raw ≠ [] := fun h0 => hraw (by simp [h0])
      intro hcontr
      exact unquote_plus_ne_nil raw hne (by simpa using congrArg String.data hcontr)

/-- The invariant maintained while `parse_qs` folds its pairs into the result
dictionary: every entry holds at least one value and every value is a nonempty
string. -/
def qsInv (d : List (String × List String)) : Prop :=
  ∀ p ∈ d, p.2 ≠ [] ∧ ∀ v ∈ p.2, v ≠ ""

/-- Appending a nonempty value preserves the invariant. -/
theorem dictAppend_qsInv (d : List (String × List String)) (k v : String)
    (hd : qsInv d) (hv : v ≠ "") : qsInv (dictAppend d k v) := by
  induction d with
  | nil =>
    intro p hp
    simp [dictAppend] at hp
    subst hp
    exact ⟨by simp, by simpa using hv⟩
  | cons kv rest ih =>
    obtain ⟨k', vs⟩ := kv
    have hhead := hd (k', vs) (by simp)
    have hrest : qsInv rest := fun p hp => hd p (by simp [hp])
    simp only [dictAppend]
    split
    · intro p hp
      rcases List.mem_cons.mp hp with h1 | h2
      · subst h1
        refine ⟨by simp, ?_⟩
        intro v' hv'
        rcases List.mem_append.mp hv' with ha | hb
        · exact hhead.2 v' ha
        · simp at hb
          subst hb
          exact hv
      · exact hrest p h2
    · intro p hp
      rcases List.mem_cons.mp hp with h1 | h2
      · subst h1
        exact hhead
      · exact ih hrest p h2

/-- Folding qsl pairs with nonempty values preserves the invariant. -/
theorem foldl_dictAppend_qsInv (L : List (String × String))
    (hL : ∀ p ∈ L, p.2 ≠ "") :
    ∀ d, qsInv d → qsInv (L.foldl (fun d kv => dictAppend d kv.1 kv.2) d) := by
  induction L with
  | nil => intro d hd; simpa using hd
  | cons p rest ih =>
    intro d hd
    simp only [List.foldl_cons]
    exact ih (fun q hq => hL q (by simp [hq]))
      _ (dictAppend_qsInv d p.1 p.2 hd (hL p (by simp)))

/-- Every entry of a `parse_qs` result has a nonempty list of nonempty values. -/
theorem parse_qs_entries (qs k : String) (vs : List String)
    (h : (k, vs) ∈ parse_qs qs) : vs ≠ [] ∧ ∀ v ∈ vs, v ≠ "" := by
  have := foldl_dictAppend_qsInv (parse_qsl qs)
    (fun p hp => parse_qsl_value_ne qs p.1 p.2 hp) [] (by intro p hp; simp at hp)
  exact this (k, vs) h

/-! ### UTF-8 round trip -/

/-- Packing a valid codepoint and unpacking it is the identity. -/
theorem toNat_ofNat_valid (n : Nat) (h : n.isValidChar) : (Char.ofNat n).toNat = n := by
  rw [Char.ofNat, dif_pos h]
  rfl

/-- The validity range of a character's codepoint. -/
theorem char_valid_nat (c : Char) :
    c.toNat < 0xD800 ∨ (0xE000 ≤ c.toNat ∧ c.toNat < 0x110000) := c.valid

/-- One-byte encoding for codepoints below 128. -/
theorem utf8EncodeChar_one (c : Char) (h : c.toNat < 0x80) : utf8EncodeChar c = [c.toNat] := by
  unfold utf8EncodeChar
  rw [if_pos h]

/-- Two-byte encoding. -/
theorem utf8EncodeChar_two (c : Char) (h1 : ¬ c.toNat < 0x80) (h2 : c.toNat < 0x800) :
    utf8EncodeChar c = [0xC0 + c.toNat / 64, 0x80 + c.toNat % 64] := by
  unfold utf8EncodeChar
  rw [if_neg h1, if_pos h2]

/-- Three-byte encoding. -/
theorem utf8EncodeChar_three (c : Char) (h1 : ¬ c.toNat < 0x80) (h2 : ¬ c.toNat < 0x800)
    (h3 : c.toNat < 0x10000) :
    utf8EncodeChar c
      = [0xE0 + c.toNat / 4096, 0x80 + c.toNat / 64 % 64, 0x80 + c.toNat % 64] := by
  unfold utf8EncodeChar
  rw [if_neg h1, if_neg h2, if_pos h3]

/-- Four-byte encoding. -/
theorem utf8EncodeChar_four (c : Char) (h1 : ¬ c.toNat < 0x80) (h2 : ¬ c.toNat < 0x800)
    (h3 : ¬ c.toNat < 0x10000) :
    utf8EncodeChar c
      = [0xF0 + c.toNat / 262144, 0x80 + c.toNat / 4096 % 64,
         0x80 + c.toNat / 64 % 64, 0x80 + c.toNat % 64] := by
  unfold utf8EncodeChar
  rw [if_neg h1, if_neg h2, if_neg h3]

/-- Decoding a one-byte sequence. -/
theorem utf8Decode_cons_one (b : Nat) (h : b < 0x80) (rest : Bytes) :
    utf8Decode (b :: rest) = (utf8Decode rest).map (fun cs => Char.ofNat b :: cs) := by
  rw [utf8Decode.eq_def]
  dsimp only
  rw [if_pos h]

/-- Decoding a two-byte sequence. -/
theorem utf8Decode_cons_two (b b2 : Nat) (rest : Bytes)
    (hb1 : 0xC2 ≤ b) (hb2 : b < 0xE0) (hc : isCont b2 = true) :
    utf8Decode (b :: b2 :: rest)
      = (utf8Decode rest).map (fun cs => Char.ofNat ((b - 0xC0) * 64 + (b2 - 0x80)) :: cs) := by
  rw [utf8Decode.eq_def]
  dsimp only
  rw [if_neg (by omega), if_neg (by omega), if_neg (by simp [hc]), if_pos (by omega)]

/-- Decoding a three-byte sequence whose value passes the range guards. -/
theorem utf8Decode_cons_three (b b2 b3 : Nat) (rest : Bytes)
    (hb1 : 0xE0 ≤ b) (hb2 : b < 0xF0) (hc2 : isCont b2 = true) (hc3 : isCont b3 = true)
    (hg : (decide ((b - 0xE0) * 4096 + (b2 - 0x80) * 64 + (b3 - 0x80) < 0x800)
        || (decide (0xD800 ≤ (b - 0xE0) * 4096 + (b2 - 0x80) * 64 + (b3 - 0x80))
            && decide ((b - 0xE0) * 4096 + (b2 - 0x80) * 64 + (b3 - 0x80) < 0xE000))) = false) :
    utf8Decode (b :: b2 :: b3 :: rest)
      = (utf8Decode rest).map
          (fun cs => Char.ofNat ((b - 0xE0) * 4096 + (b2 - 0x80) * 64 + (b3 - 0x80)) :: cs) := by
  rw [utf8Decode.eq_def]
  dsimp only
  rw [if_neg (by omega), if_neg (by omega), if_neg (by simp [hc2]), if_neg (by omega),
    if_neg (by simp [hc3]), if_pos (by omega),
    if_neg (by rw [hg]; exact Bool.false_ne_true)]

/-- Decoding a four-byte sequence whose value passes the range guards. -/
theorem utf8Decode_cons_four (b b2 b3 b4 : Nat) (rest : Bytes)
    (hb1 : 0xF0 ≤ b) (hb2 : b < 0xF5)
    (hc2 : isCont b2 = true) (hc3 : isCont b3 = true) (hc4 : isCont b4 = true)
    (hg : (decide ((b - 0xF0) * 262144 + (b2 - 0x80) * 4096 + (b3 - 0x80) * 64 + (b4 - 0x80)
            < 0x10000)
        || decide (0x110000
            ≤ (b - 0xF0) * 262144 + (b2 - 0x80) * 4096 + (b3 - 0x80) * 64 + (b4 - 0x80)))
        = false) :
    utf8Decode (b :: b2 :: b3 :: b4 :: rest)
      = (utf8Decode rest).map
          (fun cs => Char.ofNat
            ((b - 0xF0) * 262144 + (b2 - 0x80) * 4096 + (b3 - 0x80) * 64 + (b4 - 0x80)) :: cs) := by
  rw [utf8Decode.eq_def]
  dsimp only
  rw [if_neg (by omega), if_neg (by omega), if_neg (by simp [hc2]), if_neg (by omega),
    if_neg (by simp [hc3]), if_neg (by omega), if_neg (by simp [hc4]), if_pos (by omega),
    if_neg (by rw [hg]; exact Bool.false_ne_true)]

/-- Decoding bytes that start with the encoding of a character peels off
exactly that character. -/
theorem utf8Decode_encodeChar (c : Char) (bs : Bytes) :
    utf8Decode (utf8EncodeChar c ++ bs) = (utf8Decode bs).map (fun cs => c :: cs) := by
  have hv := char_valid_nat c
  by_cases h1 : c.toNat < 0x80
  · rw [utf8EncodeChar_one c h1]
    simp only [List.cons_append, List.nil_append]
    rw [utf8Decode_cons_one _ h1, Char.ofNat_toNat]
  · by_cases h2 : c.toNat < 0x800
    · rw [utf8EncodeChar_two c h1 h2]
      simp only [List.cons_append, List.nil_append]
      rw [utf8Decode_cons_two _ _ _ (by omega) (by omega)
        (by simp only [isCont, Bool.and_eq_true, decide_eq_true_eq]; omega)]
      have hval : (0xC0 + c.toNat / 64 - 0xC0) * 64 + (0x80 + c.toNat % 64 - 0x80)
          = c.toNat := by omega
      rw [hval, Char.ofNat_toNat]
    · by_cases h3 : c.toNat < 0x10000
      · rw [utf8EncodeChar_three c h1 h2 h3]
        simp only [List.cons_append, List.nil_append]
        have hval : (0xE0 + c.toNat / 4096 - 0xE0) * 4096
            + (0x80 + c.toNat / 64 % 64 - 0x80) * 64 + (0x80 + c.toNat % 64 - 0x80)
            = c.toNat := by omega
        rw [utf8Decode_cons_three _ _ _ _ (by omega) (by omega)
          (by simp only [isCont, Bool.and_eq_true, decide_eq_true_eq]; omega)
          (by simp only [isCont, Bool.and_eq_true, decide_eq_true_eq]; omega)
          (by
            rw [hval]
            simp only [Bool.or_eq_false_iff, Bool.and_eq_false_iff, decide_eq_false_iff_not]
            constructor
            · omega
            · rcases hv with hlow | ⟨hge, -⟩
              · left; omega
              · right; omega)]
        rw [hval, Char.ofNat_toNat]
      · have hlt : c.toNat < 0x110000 := by
          rcases hv with hlow | ⟨-, hfin⟩
          · omega
          · exact hfin
        rw [utf8EncodeChar_four c h1 h2 h3]
        simp only [List.cons_append, List.nil_append]
        have hval : (0xF0 + c.toNat / 262144 - 0xF0) * 262144
            + (0x80 + c.toNat / 4096 % 64 - 0x80) * 4096
            + (0x80 + c.toNat / 64 % 64 - 0x80) * 64 + (0x80 + c.toNat % 64 - 0x80)
            = c.toNat := by omega
        rw [utf8Decode_cons_four _ _ _ _ _ (by omega) (by omega)
          (by simp only [isCont, Bool.and_eq_true, decide_eq_true_eq]; omega)
          (by simp only [isCont, Bool.and_eq_true, decide_eq_true_eq]; omega)
          (by simp only [isCont, Bool.and_eq_true, decide_eq_true_eq]; omega)
          (by
            rw [hval]
            simp only [Bool.or_eq_false_iff, decide_eq_false_iff_not]
            omega)]
        rw [hval, Char.ofNat_toNat]

/-- Decoding the encoding of a character list yields the list back. -/
theorem utf8Decode_encode_list (cs : List Char) :
    utf8Decode ((cs.map utf8EncodeChar).flatten) = some cs := by
  induction cs with
  | nil => simp [utf8Decode]
  | cons c rest ih =>
    simp only [List.map_cons, List.flatten_cons]
    rw [utf8Decode_encodeChar, ih]
    rfl

/-- Decoding the UTF-8 encoding of a string yields its characters. -/
theorem utf8Decode_strBytes (s : String) : utf8Decode (strBytes s) = some s.data :=
  utf8Decode_encode_list s.data

/-- Round trip of `encode` then `decode` at the level of the model's
exception-aware decoding. -/
theorem utf8DecodeStr_strBytes (s : String) : utf8DecodeStr (strBytes s) = .ok s := by
  rw [utf8DecodeStr, utf8Decode_strBytes]

/-- Encoding distributes over string concatenation. -/
theorem strBytes_append (s t : String) : strBytes (s ++ t) = strBytes s ++ strBytes t := by
  simp [strBytes]

/-- Every byte of one character's encoding is the (sub-128) codepoint itself or
at least 128. -/
theorem utf8EncodeChar_mem (c : Char) (b : Nat) (h : b ∈ utf8EncodeChar c) :
    (b = c.toNat ∧ c.toNat < 0x80) ∨ 0x80 ≤ b := by
  by_cases h1 : c.toNat < 0x80
  · simp only [utf8EncodeChar, if_pos h1, List.mem_singleton] at h
    exact Or.inl ⟨h, h1⟩
  · right
    by_cases h2 : c.toNat < 0x800
    · simp only [utf8EncodeChar, if_neg h1, if_pos h2, List.mem_cons, List.mem_singleton,
        List.not_mem_nil, or_false] at h
      rcases h with h | h <;> omega
    · by_cases h3 : c.toNat < 0x10000
      · simp only [utf8EncodeChar, if_neg h1, if_neg h2, if_pos h3, List.mem_cons,
          List.not_mem_nil, or_false] at h
        rcases h with h | h | h <;> omega
      · simp only [utf8EncodeChar, if_neg h1, if_neg h2, if_neg h3, List.mem_cons,
          List.not_mem_nil, or_false] at h
        rcases h with h | h | h | h <;> omega

/-- A byte below 128 occurs in an encoded string only when the corresponding
ASCII character occurs in the string. -/
theorem mem_strBytes_low (s : String) (b : Nat) (hlt : b < 0x80)
    (h : b ∈ strBytes s) : ∃ c ∈ s.data, c.toNat = b := by
  simp only [strBytes, List.mem_flatten, List.mem_map] at h
  obtain ⟨l, ⟨c, hc, rfl⟩, hb⟩ := h
  rcases utf8EncodeChar_mem c b hb with ⟨rfl, -⟩ | hge
  · exact ⟨c, hc, rfl⟩
  · omega

/-- Shape of a successful Request construction: the header pairs and the query
string decoded, the record fields as assigned by the constructor (the parsed
JSON body is existentially packaged). -/
theorem Request.init_ok_shape {scope : Scope} {req : Request}
    (h : Request.init scope = .ok req) :
    ∃ hpairs qstr json, decodeHeaderPairs scope.headers = .ok hpairs
      ∧ utf8DecodeStr scope.query_string = .ok qstr
      ∧ req = { path := scope.path, method := scope.method, headers := pairsToDict hpairs,
                query_params := parse_qs qstr, body := scope.body, path_params := [],
                json := json } := by
  unfold Request.init at h
  simp only [Bind.bind, Except.bind] at h
  cases hh : decodeHeaderPairs scope.headers <;> rw [hh] at h <;> dsimp only at h
  · exact Except.noConfusion h
  rename_i hpairs
  cases hq : utf8DecodeStr scope.query_string <;> rw [hq] at h <;> dsimp only at h
  · exact Except.noConfusion h
  rename_i qstr
  rcases hct : dictGet (pairsToDict hpairs) "content-type" with _ | ct <;>
    rw [hct] at h <;> dsimp only at h
  · injection h with h2
    exact ⟨hpairs, qstr, none, rfl, rfl, h2.symm⟩
  · by_cases hjson : strContains ct "application/json" = true
    · rw [if_pos hjson] at h
      cases hb : utf8DecodeStr scope.body <;> rw [hb] at h <;> dsimp only at h
      · exact Except.noConfusion h
      rename_i bodyStr
      injection h with h2
      exact ⟨hpairs, qstr, json_loads bodyStr, rfl, rfl, h2.symm⟩
    · rw [if_neg hjson] at h
      injection h with h2
      exact ⟨hpairs, qstr, none, rfl, rfl, h2.symm⟩

/-- C10: a query parameter assigned only an empty value is absent from the
constructed Request's query_params mapping: an entry appears only with at
least one nonempty value; in particular the two empty-assignment forms of the
claim produce no entry. -/
theorem C10_blank_query_values_dropped :
    (∀ (scope : Scope) (req : Request), Request.init scope = .ok req →
      ∀ k vs, (k, vs) ∈ req.query_params → vs ≠ [] ∧ ∀ v ∈ vs, v ≠ "")
    ∧ parse_qs "name=" = [] ∧ parse_qs "name" = [] := by
  refine ⟨?_, by rfl, by rfl⟩
  intro scope req h k vs hmem
  obtain ⟨hpairs, qstr, json, -, -, hreq⟩ := Request.init_ok_shape h
  subst hreq
  exact parse_qs_entries qstr k vs hmem

/-- Witness for C10: the scope of a request for `/?a=1&b=` constructs
successfully and its only query entry is the nonempty value of `a`. -/
theorem C10_blank_query_values_dropped_witness :
    (["1"] : List String) ≠ [] ∧ ∀ v ∈ (["1"] : List String), v ≠ "" :=
  C10_blank_query_values_dropped.1
    { type := "http", http_version := "HTTP/1.1", method := "GET", path := "/",
      query_string := strBytes "a=1&b=", headers := [], raw_path := [], body := [] }
    { path := "/", method := "GET", headers := [], query_params := [("a", ["1"])],
      body := [], path_params := [], json := none }
    (by rfl) "a" ["1"] (by simp)

/-! ### C4: registration order, first match wins, full-path anchoring -/

/-- The dispatch loop takes the first matching route, in order. -/
theorem dispatch_loop_first (pre : List (String × Handler)) (t : String) (h : Handler)
    (post : List (String × Handler)) (req : Request) (binds : List (String × String))
    (hpre : ∀ r ∈ pre, route_match r.1 req.path = none)
    (ht : route_match t req.path = some binds) :
    dispatch_loop (pre ++ (t, h) :: post) req = h { req with path_params := binds } := by
  induction pre with
  | nil => simp [dispatch_loop, ht]
  | cons r rest ih =>
    obtain ⟨t', h'⟩ := r
    simp only [List.cons_append, dispatch_loop]
    rw [hpre (t', h') (by simp)]
    exact ih (fun r hr => hpre r (by simp [hr]))

/-- A concrete GET request to a path, used in concrete routing scenarios. -/
def getRequest (p : String) : Request :=
  { path := p, method := "GET", headers := [], query_params := [], body := [],
    path_params := [], json := none }

/-- Binding a successful Except value applies the continuation. -/
theorem except_bind_ok (x : α) (f : α → Except PyErr β) :
    ((Except.ok x : Except PyErr α) >>= f) = f x := rfl

/-- Binding a failed Except value keeps the failure. -/
theorem except_bind_err (e : PyErr) (f : α → Except PyErr β) :
    ((Except.error e : Except PyErr α) >>= f) = Except.error e := rfl

/-- dropWhile skips a block that satisfies the predicate throughout. -/
theorem dropWhile_all_append (p : Char → Bool) (a b : List Char)
    (ha : ∀ c ∈ a, p c = true) :
    List.dropWhile p (a ++ b) = List.dropWhile p b := by
  induction a with
  | nil => simp
  | cons c a' ih =>
    rw [show (c :: a') ++ b = c :: (a' ++ b) from rfl, List.dropWhile_cons,
      if_pos (ha c (by simp))]
    exact ih (fun c hc => ha c (by simp [hc]))

/-- dropWhile keeps a list none of whose elements satisfy the predicate. -/
theorem dropWhile_all_neg (p : Char → Bool) (xs : List Char)
    (h : ∀ c ∈ xs, p c = false) : List.dropWhile p xs = xs := by
  cases xs with
  | nil => simp
  | cons c rest => rw [List.dropWhile_cons, if_neg (by simp [h c (by simp)])]

/-- Stripping leading whitespace from an otherwise whitespace-free token. -/
theorem pyStrip_ws_prefix (ws xs : List Char)
    (hws : ∀ c ∈ ws, isPySpace c = true) (hxs : ∀ c ∈ xs, isPySpace c = false) :
    pyStrip (ws ++ xs) = xs := by
  rw [pyStrip, dropWhile_all_append _ _ _ hws, dropWhile_all_neg _ _ hxs,
    dropWhile_all_neg _ _ (by intro c hc; exact hxs c (by simpa using hc)),
    List.reverse_reverse]

/-- Stripping a line whose first character is not whitespace and whose tail is
a whitespace-free block followed by trailing whitespace. -/
theorem pyStrip_line (x : Char) (mid : List Char) (y : Char) (ws : List Char)
    (hx : isPySpace x = false) (hy : isPySpace y = false)
    (hws : ∀ c ∈ ws, isPySpace c = true) :
    pyStrip ((x :: mid ++ [y]) ++ ws) = x :: mid ++ [y] := by
  rw [pyStrip]
  rw [show (x :: mid ++ [y]) ++ ws = x :: (mid ++ [y] ++ ws) from by simp]
  rw [List.dropWhile_cons, if_neg (by simp [hx])]
  rw [show (x :: (mid ++ [y] ++ ws)).reverse = ws.reverse ++ (y :: (mid.reverse ++ [x]))
      from by simp]
  rw [dropWhile_all_append _ _ _ (by intro c hc; exact hws c (by simpa using hc))]
  rw [List.dropWhile_cons, if_neg (by simp [hy])]
  simp

/-- Splitting skips a separator-free block and consumes one separator. -/
theorem pySplit_block (sep : Char) (a : List Char) (ha : ∀ c ∈ a, ¬ c = sep)
    (b : List Char) (n : Nat) :
    pySplit sep (some (n + 1)) (a ++ sep :: b) = a :: pySplit sep (some n) b := by
  induction a with
  | nil =>
    rw [show ([] : List Char) ++ sep :: b = sep :: b from rfl]
    rw [pySplit, if_pos rfl]
  | cons c a' ih =>
    rw [show (c :: a') ++ sep :: b = c :: (a' ++ sep :: b) from rfl]
    rw [pySplit, if_neg (ha c (by simp))]
    rw [ih (fun c hc => ha c (by simp [hc]))]
    rfl

/-- Splitting with an exhausted budget returns the remainder whole. -/
theorem pySplit_exhausted (sep : Char) (cs : List Char) :
    pySplit sep (some 0) cs = [cs] := by
  rw [pySplit]

/-- Splitting a separator-free list returns it whole. -/
theorem pySplit_no_sep (sep : Char) (cs : List Char) (h : ∀ c ∈ cs, ¬ c = sep) :
    ∀ budget : Option Nat, budget ≠ some 0 → pySplit sep budget cs = [cs] := by
  induction cs with
  | nil =>
    intro budget hb
    rcases budget with _ | n
    · rw [pySplit] <;> simp
    · match n, hb with
      | n + 1, _ => rw [pySplit] <;> simp
  | cons c rest ih =>
    intro budget hb
    rcases budget with _ | n
    · rw [pySplit, if_neg (h c (by simp)),
        ih (fun c hc => h c (by simp [hc])) none (by simp)] <;> simp [consFirst]
    · match n, hb with
      | n + 1, _ =>
        rw [pySplit, if_neg (h c (by simp)),
          ih (fun c hc => h c (by simp [hc])) (some (n + 1)) (by simp)] <;> simp [consFirst]

/-- readline consumes a newline-free block up to and including the newline. -/
theorem readline_block (bs : Bytes) (hno : ∀ b ∈ bs, ¬ b = 10) (rest : Bytes) :
    readline (bs ++ 10 :: rest) = (bs ++ [10], rest) := by
  induction bs with
  | nil =>
    rw [show ([] : Bytes) ++ 10 :: rest = 10 :: rest from rfl]
    rw [readline, if_pos rfl]
    rfl
  | cons b bs' ih =>
    rw [show (b :: bs') ++ 10 :: rest = b :: (bs' ++ 10 :: rest) from rfl]
    rw [readline, if_neg (hno b (by simp))]
    rw [ih (fun b hb => hno b (by simp [hb]))]
    rfl

/-- A byte 10 appears in an encoded string only when the string contains a
newline character. -/
theorem strBytes_no_newline (s : String) (h : ∀ c ∈ s.data, ¬ c = '\n') :
    ∀ b ∈ strBytes s, ¬ b = 10 := by
  intro b hb hb10
  subst hb10
  obtain ⟨c, hc, hcn⟩ := mem_strBytes_low s 10 (by norm_num) hb
  have : c = '\n' := by
    have := congrArg Char.ofNat hcn
    rwa [Char.ofNat_toNat] at this
  exact h c hc this

/-- Characters are equal exactly when their codepoints are. -/
theorem char_eq_iff_toNat (c d : Char) : c = d ↔ c.toNat = d.toNat := by
  constructor
  · intro h; rw [h]
  · intro h
    have := congrArg Char.ofNat h
    rwa [Char.ofNat_toNat, Char.ofNat_toNat] at this

/-- The header-loop equation: a CRLF line terminates the loop. -/
theorem read_headers_crlf (acc : List (String × String)) (rest : Bytes) :
    read_headers acc (13 :: 10 :: rest) = .ok (acc, rest) := by
  rw [read_headers]
  rw [show readline (13 :: 10 :: rest) = ([13, 10], rest) from by
    rw [show (13 : Nat) :: 10 :: rest = [13] ++ 10 :: rest from rfl]
    exact readline_block [13] (by simp) rest]
  rw [dif_pos (Or.inr rfl)]

/-- The header-loop equation: end of stream terminates the loop. -/
theorem read_headers_eof (acc : List (String × String)) :
    read_headers acc [] = .ok (acc, []) := by
  rw [read_headers]
  rw [show readline [] = ([], []) from rfl]
  rw [dif_pos (Or.inl rfl)]

/-- The header-loop equation: one well-formed header line is consumed and
stored with a lower-cased name and stripped value. -/
theorem read_headers_step (acc : List (String × String)) (bs rest : Bytes)
    (hno10 : ∀ b ∈ bs, ¬ b = 10) (hne : bs ≠ [])
    (lineStr : String) (hdec : utf8DecodeStr (bs ++ [13, 10]) = .ok lineStr)
    (k v : List Char) (hsplit : pySplit ':' (some 1) (pyStrip lineStr.data) = [k, v]) :
    read_headers acc (bs ++ 13 :: 10 :: rest)
      = read_headers (dictSet acc (String.mk (pyLower k)) (String.mk (pyStrip v))) rest := by
  have hrl : readline (bs ++ 13 :: 10 :: rest) = (bs ++ [13, 10], rest) := by
    rw [show bs ++ 13 :: 10 :: rest = (bs ++ [13]) ++ 10 :: rest from by simp]
    rw [readline_block (bs ++ [13]) (by
      intro b hb
      rcases List.mem_append.mp hb with h | h
      · exact hno10 b h
      · simp at h
        omega) rest]
    simp
  rw [read_headers, hrl]
  rw [dif_neg (by
    rintro (h1 | h2)
    · exact hne (by simpa using congrArg List.length h1)
    · have hl := congrArg List.length h2
      simp at hl
      exact hne hl)]
  rw [hdec, except_bind_ok]
  dsimp only
  rw [hsplit]

/-- Characters whose codepoint is none of the whitespace codes are not Python
whitespace. -/
theorem isPySpace_false_of_toNat (c : Char)
    (h : c.toNat ≠ 32 ∧ c.toNat ≠ 9 ∧ c.toNat ≠ 10 ∧ c.toNat ≠ 13
      ∧ c.toNat ≠ 11 ∧ c.toNat ≠ 12) : isPySpace c = false := by
  simp only [isPySpace, Bool.or_eq_false_iff, decide_eq_false_iff_not]
  refine ⟨⟨⟨⟨⟨?_, ?_⟩, ?_⟩, ?_⟩, ?_⟩, ?_⟩ <;>
    [skip; skip; skip; skip; skip; skip] <;>
    intro he <;>
    simp_all [char_eq_iff_toNat]

/-- Parsing a GET request with a whitespace-free target and no headers: the
scope carries the urlparse-split target, and the bytes after the header
terminator are never read. -/
theorem parse_get_request (t : String) (max_body_size : Nat) (extra : Bytes)
    (ht : ∀ c ∈ t.data, isPySpace c = false) :
    parse_http_request max_body_size
        (strBytes ("GET " ++ t ++ " HTTP/1.1\r\n\r\n") ++ extra)
      = .ok (.scope
          { type := "http", http_version := "HTTP/1.1", method := "GET",
            path := (url_split t).1, query_string := strBytes (url_split t).2,
            headers := [], raw_path := strBytes t, body := [] }) := by
  have htns : ∀ c ∈ t.data, ¬ c = ' ' := by
    intro c hc he
    have := ht c hc
    rw [he] at this
    simp [isPySpace] at this
  have hln : ∀ c ∈ ("GET " ++ t ++ " HTTP/1.1\r").data, ¬ c = '\n' := by
    intro c hc
    simp only [String.data_append] at hc
    rcases List.mem_append.mp hc with hc1 | hc2
    · rcases List.mem_append.mp hc1 with hc3 | hc4
      · intro he
        subst he
        simp at hc3
      · intro he
        subst he
        have := ht _ hc4
        simp [isPySpace] at this
    · intro he
      subst he
      simp at hc2
  have hsplit_str : ("GET " ++ t ++ " HTTP/1.1\r\n\r\n" : String)
      = ("GET " ++ t ++ " HTTP/1.1\r") ++ "\n\r\n" := by
    apply String.ext
    simp [String.data_append]
  have hbytes : strBytes ("GET " ++ t ++ " HTTP/1.1\r\n\r\n") ++ extra
      = strBytes ("GET " ++ t ++ " HTTP/1.1\r") ++ 10 :: 13 :: 10 :: extra := by
    rw [hsplit_str, strBytes_append]
    rw [show strBytes "\n\r\n" = [10, 13, 10] from rfl]
    simp
  have hrl : readline (strBytes ("GET " ++ t ++ " HTTP/1.1\r") ++ 10 :: 13 :: 10 :: extra)
      = (strBytes ("GET " ++ t ++ " HTTP/1.1\r") ++ [10], 13 :: 10 :: extra) :=
    readline_block _ (strBytes_no_newline _ hln) _
  have hdec : utf8DecodeStr (strBytes ("GET " ++ t ++ " HTTP/1.1\r") ++ [10])
      = .ok ("GET " ++ t ++ " HTTP/1.1\r\n") := by
    rw [show (strBytes ("GET " ++ t ++ " HTTP/1.1\r") ++ [10] : Bytes)
        = strBytes (("GET " ++ t ++ " HTTP/1.1\r") ++ "\n") from by
      rw [strBytes_append ("GET " ++ t ++ " HTTP/1.1\r") "\n"]
      rfl]
    rw [utf8DecodeStr_strBytes]
    congr 1
    apply String.ext
    simp [String.data_append]
  have hstrip : pyStrip (("GET " ++ t ++ " HTTP/1.1\r\n").data)
      = ['G', 'E', 'T'] ++ ' ' :: (t.data ++ ' ' :: ['H', 'T', 'T', 'P', '/', '1', '.', '1']) := by
    have h0 := pyStrip_line 'G'
      (['E', 'T', ' '] ++ t.data ++ [' ', 'H', 'T', 'T', 'P', '/', '1', '.']) '1' ['\r', '\n']
      (by decide) (by decide) (by decide)
    rw [show ("GET " ++ t ++ " HTTP/1.1\r\n").data
        = ('G' :: (['E', 'T', ' '] ++ t.data ++ [' ', 'H', 'T', 'T', 'P', '/', '1', '.'])
            ++ ['1']) ++ ['\r', '\n'] from by simp [String.data_append]]
    rw [h0]
    simp
  have hsp : pySplit ' ' (some 2)
      (['G', 'E', 'T'] ++ ' ' :: (t.data ++ ' ' :: ['H', 'T', 'T', 'P', '/', '1', '.', '1']))
      = [['G', 'E', 'T'], t.data, ['H', 'T', 'T', 'P', '/', '1', '.', '1']] := by
    rw [pySplit_block ' ' ['G', 'E', 'T'] (by decide) _ 1]
    rw [pySplit_block ' ' t.data htns _ 0]
    rw [pySplit_exhausted]
  rw [hbytes]
  rw [parse_http_request]
  rw [show parse_core max_body_size
      (strBytes ("GET " ++ t ++ " HTTP/1.1\r") ++ 10 :: 13 :: 10 :: extra)
      = .ok (.scope
          { type := "http", http_version := "HTTP/1.1", method := "GET",
            path := (url_split t).1, query_string := strBytes (url_split t).2,
            headers := [], raw_path := strBytes t, body := [] }) from ?_]
  rw [parse_core]
  rw [hrl]
  rw [if_neg (by simp)]
  rw [hdec, except_bind_ok]
  dsimp only
  rw [hstrip, hsp]
  dsimp only
  rw [read_headers_crlf, except_bind_ok]
  dsimp only
  rfl

/-! ### C2: parse failures crash the 400 path before any dispatch -/

/-- C2 (code bug): whenever the wire parser signals a failure, the source
intends to send a 400 response and close without invoking the dispatcher; but
the 400 attempt calls `decode` on the default str body and raises
`AttributeError`, which escapes the connection handler.  Nothing is written to
the client, and the outcome is identical for every router, so the dispatcher
is indeed never invoked.  The closed conjuncts evaluate the two canonical
failures: a closed (empty) stream, and a malformed request line. -/
theorem C2_parse_failure_no_400_no_dispatch :
    (∀ (max_body_size : Nat) (input : Bytes) (e : PyErr),
      parse_core max_body_size input = .error e →
      parse_http_request max_body_size input = .error "AttributeError"
      ∧ ∀ router : RouterT,
          handle_request router max_body_size input = .crashed "AttributeError")
    ∧ parse_core 1024 [] = .error "AttributeError"
    ∧ parse_core 1024 (strBytes "GET /\r\n\r\n") = .error "ValueError" := by
  refine ⟨?_, by rfl, by rfl⟩
  intro max_body_size input e h
  have hp : parse_http_request max_body_size input = .error "AttributeError" := by
    rw [parse_http_request, h]
    rfl
  refine ⟨hp, fun router => ?_⟩
  rw [handle_request, hp]

/-- Witness for C2: the empty stream (immediately closed connection) is a
parse failure; the connection crashes with nothing written, for an arbitrary
router. -/
theorem C2_parse_failure_no_400_no_dispatch_witness :
    parse_http_request 1024 [] = .error "AttributeError"
    ∧ handle_request [] 1024 [] = .crashed "AttributeError" :=
  ⟨(C2_parse_failure_no_400_no_dispatch.1 1024 [] "AttributeError" (by rfl)).1,
   (C2_parse_failure_no_400_no_dispatch.1 1024 [] "AttributeError" (by rfl)).2 []⟩

/-! ### C1: a handler exception escapes dispatch and kills the 500 path -/

/-- A router with one GET route whose handler raises. -/
def raisingRouter (e : PyErr) : RouterT := [("GET", [("/boom", fun _ => .error e)])]

/-- C1 (code bug): an exception raised by a handler is NOT caught at the
dispatch boundary — `Router.dispatch` and `App.__call__` both propagate it to
the connection layer — and the connection layer's 500 attempt itself raises
`AttributeError` (the default str body has no `decode`), so the connection
receives no bytes at all instead of a complete 500 response. -/
theorem C1_handler_failure_not_contained :
    (∀ e : PyErr,
      Router.dispatch (raisingRouter e) (getRequest "/boom") = .error e)
    ∧ (∀ e : PyErr,
      handle_request (raisingRouter e) 1024 (strBytes "GET /boom HTTP/1.1\r\n\r\n")
        = .crashed "AttributeError")
    ∧ send_http_response 500 "Something went wrong!" none (.bstr "")
        = .error "AttributeError" := by
  have hroute : route_match "/boom" "/boom" = some [] := by
    simp [route_match, compile_template, parseBrace, scanIdent, isIdentStart, isIdentChar,
      lbraceChar, rbraceChar, matchChunks, tryParam, String.mk]
  have hdisp : ∀ e : PyErr,
      Router.dispatch (raisingRouter e) (getRequest "/boom") = .error e := by
    intro e
    rw [show Router.dispatch (raisingRouter e) (getRequest "/boom")
        = dispatch_loop [("/boom", fun _ => .error e)] (getRequest "/boom") from rfl]
    exact dispatch_loop_first [] "/boom" _ [] (getRequest "/boom") [] (by simp) hroute
  refine ⟨hdisp, ?_, by rfl⟩
  intro e
  have happ : app_call (raisingRouter e)
      { type := "http", http_version := "HTTP/1.1", method := "GET", path := "/boom",
        query_string := [], headers := [], raw_path := strBytes "/boom", body := [] }
      = .error e := by
    rw [app_call, if_pos rfl]
    rw [show Request.init
        { type := "http", http_version := "HTTP/1.1", method := "GET", path := "/boom",
          query_string := [], headers := [], raw_path := strBytes "/boom", body := [] }
        = .ok (getRequest "/boom") from rfl]
    rw [except_bind_ok, hdisp e]
    rfl
  have hparse := parse_get_request "/boom" 1024 [] (by decide)
  rw [show strBytes "GET /boom HTTP/1.1\r\n\r\n"
      = strBytes ("GET " ++ "/boom" ++ " HTTP/1.1\r\n\r\n") ++ [] from by rfl]
  rw [handle_request, hparse]
  dsimp only
  rw [show app_call (raisingRouter e)
      { type := "http", http_version := "HTTP/1.1", method := "GET",
        path := (url_split "/boom").1, query_string := strBytes (url_split "/boom").2,
        headers := [], raw_path := strBytes "/boom", body := [] }
      = .error e from happ]
  rfl

/-! ### C6: JSON body detection -/

/-- Header pairs encoded from strings decode back to those strings. -/
theorem decodeHeaderPairs_encoded (hs : List (String × String)) :
    decodeHeaderPairs (hs.map (fun kv => (strBytes kv.1, strBytes kv.2))) = .ok hs := by
  induction hs with
  | nil => rfl
  | cons kv rest ih =>
    obtain ⟨k, v⟩ := kv
    simp only [List.map_cons, decodeHeaderPairs]
    rw [utf8DecodeStr_strBytes, except_bind_ok, utf8DecodeStr_strBytes, except_bind_ok, ih,
      except_bind_ok]

/-- Counterexample for C6 as stated: a request declaring a JSON content type
whose body is the single byte 255 (not valid UTF-8) makes Request construction
raise UnicodeDecodeError — `json.loads(self.body.decode("utf-8"))` only
catches `json.JSONDecodeError` — rather than yielding an absent parsed-body. -/
theorem C6_json_detection_counterexample :
    Request.init
      { type := "http", http_version := "HTTP/1.1", method := "POST", path := "/users",
        query_string := [],
        headers := [(strBytes "content-type", strBytes "application/json")],
        raw_path := [], body := [255] }
      = .error "UnicodeDecodeError" := by rfl

/-- C6 as amended: for every request whose stored content-type contains
application/json and whose body is the UTF-8 encoding of a string, Request
construction succeeds and the parsed-body is exactly the JSON decode of that
string — the decoded value when the body is syntactically valid JSON, absent
otherwise, never a failure.  (A body that is not valid UTF-8 instead raises,
per the counterexample.) -/
theorem C6_json_detection_amended (hs : List (String × String))
    (bodyStr method path qs ct : String)
    (hct : dictGet (pairsToDict hs) "content-type" = some ct)
    (hjson : strContains ct "application/json" = true) :
    ∃ req, Request.init
        { type := "http", http_version := "HTTP/1.1", method := method, path := path,
          query_string := strBytes qs,
          headers := hs.map (fun kv => (strBytes kv.1, strBytes kv.2)),
          raw_path := [], body := strBytes bodyStr }
      = .ok req ∧ req.json = json_loads bodyStr := by
  refine ⟨{ path := path, method := method, headers := pairsToDict hs,
            query_params := parse_qs qs, body := strBytes bodyStr, path_params := [],
            json := json_loads bodyStr }, ?_, rfl⟩
  rw [Request.init]
  rw [decodeHeaderPairs_encoded, except_bind_ok]
  dsimp only
  rw [utf8DecodeStr_strBytes, except_bind_ok, hct]
  dsimp only
  rw [if_pos hjson, utf8DecodeStr_strBytes, except_bind_ok]
  rfl

/-- Witness for C6: a JSON request with the valid body of the claim's
scenario. -/
theorem C6_json_detection_amended_witness :
    ∃ req, Request.init
        { type := "http", http_version := "HTTP/1.1", method := "POST", path := "/users",
          query_string := strBytes "",
          headers := [("content-type", "application/json")].map
            (fun kv => (strBytes kv.1, strBytes kv.2)),
          raw_path := [], body := strBytes "[1, 2]" }
      = .ok req ∧ req.json = json_loads "[1, 2]" :=
  C6_json_detection_amended [("content-type", "application/json")] "[1, 2]" "POST" "/users"
    "" "application/json" (by rfl) (by rfl)

/-! ### Decimal rendering facts -/

/-- Every byte of a decimal rendering is an ASCII digit code. -/
theorem natDigits_mem : ∀ (N n : Nat), n ≤ N → ∀ b ∈ natDigits n, 48 ≤ b ∧ b ≤ 57 := by
  intro N
  induction N with
  | zero =>
    intro n hn b hb
    have h0 : n = 0 := by omega
    subst h0
    rw [natDigits] at hb
    simp at hb
    omega
  | succ N ih =>
    intro n hn b hb
    rw [natDigits] at hb
    split at hb
    · simp at hb
      omega
    · rename_i h10
      simp at h10
      rcases List.mem_append.mp hb with h | h
      · exact ih (n / 10) (by omega) b h
      · simp at h
        omega

/-- A decimal rendering is never empty. -/
theorem natDigits_ne_nil (n : Nat) : natDigits n ≠ [] := by
  rw [natDigits]
  split <;> simp

/-- Unfolding digit accumulation one step. -/
theorem parseDigits_cons (acc d : Nat) (rest : List Nat) :
    parseDigits acc (d :: rest) = parseDigits (acc * 10 + (d - 48)) rest := rfl

/-- Digit accumulation of the empty list. -/
theorem parseDigits_nil (acc : Nat) : parseDigits acc [] = acc := rfl

/-- Digit accumulation distributes over append. -/
theorem parseDigits_append (xs : List Nat) :
    ∀ (acc : Nat) (ys : List Nat), parseDigits acc (xs ++ ys) = parseDigits (parseDigits acc xs) ys := by
  induction xs with
  | nil => intro acc ys; rfl
  | cons d rest ih =>
    intro acc ys
    rw [show (d :: rest) ++ ys = d :: (rest ++ ys) from rfl, parseDigits_cons, ih, parseDigits_cons]

/-- Reading back a decimal rendering recovers the number. -/
theorem parseDigits_natDigits : ∀ (N n : Nat), n ≤ N → parseDigits 0 (natDigits n) = n := by
  intro N
  induction N with
  | zero =>
    intro n hn
    have h0 : n = 0 := by omega
    subst h0
    rw [natDigits, if_pos (by norm_num)]
    rfl
  | succ N ih =>
    intro n hn
    rw [natDigits]
    split
    · rename_i h10
      rw [parseDigits_cons, parseDigits_nil]
      omega
    · rename_i h10
      simp only [Nat.not_lt] at h10
      rw [parseDigits_append, ih (n / 10) (by omega), parseDigits_cons, parseDigits_nil]
      omega

/-- Codepoints of the decimal rendering's characters are the digit bytes. -/
theorem natRepr_toNat (n : Nat) : (natRepr n).map Char.toNat = natDigits n := by
  rw [natRepr, List.map_map]
  have : ∀ ds : List Nat, (∀ b ∈ ds, 48 ≤ b ∧ b ≤ 57) →
      ds.map (Char.toNat ∘ Char.ofNat) = ds := by
    intro ds hds
    induction ds with
    | nil => rfl
    | cons b rest ih =>
      have hb := hds b (by simp)
      rw [List.map_cons, ih (fun b hb => hds b (by simp [hb]))]
      rw [show (Char.toNat ∘ Char.ofNat) b = (Char.ofNat b).toNat from rfl]
      rw [toNat_ofNat_valid b (Or.inl (by omega))]
  exact this (natDigits n) (natDigits_mem n n le_rfl)

/-- The digit characters of a decimal rendering have digit codepoints. -/
theorem natRepr_char_digit (n : Nat) (c : Char) (hc : c ∈ natRepr n) :
    48 ≤ c.toNat ∧ c.toNat ≤ 57 := by
  rw [natRepr] at hc
  obtain ⟨b, hb, rfl⟩ := List.mem_map.mp hc
  have hrange := natDigits_mem n n le_rfl b hb
  rw [toNat_ofNat_valid b (Or.inl (by omega))]
  exact hrange

/-- Digit characters are not whitespace. -/
theorem natRepr_not_space (n : Nat) (c : Char) (hc : c ∈ natRepr n) :
    isPySpace c = false := by
  have h := natRepr_char_digit n c hc
  exact isPySpace_false_of_toNat c (by omega)

/-- The rendering of a decimal number is nonempty. -/
theorem natRepr_ne_nil (n : Nat) : natRepr n ≠ [] := by
  rw [natRepr]
  intro h
  exact natDigits_ne_nil n (by simpa using h)

/-- ASCII-only strings encode one byte per character. -/
theorem encode_ascii (cs : List Char) (h : ∀ c ∈ cs, c.toNat < 0x80) :
    ((cs.map utf8EncodeChar).flatten) = cs.map Char.toNat := by
  induction cs with
  | nil => rfl
  | cons c rest ih =>
    rw [List.map_cons, List.map_cons, List.flatten_cons, utf8EncodeChar_one c (h c (by simp)),
      ih (fun c hc => h c (by simp [hc]))]
    rfl

/-- The UTF-8 bytes of a decimal rendering are exactly its digit bytes. -/
theorem strBytes_natRepr (n : Nat) : strBytes (natReprStr n) = natDigits n := by
  rw [natReprStr, strBytes]
  rw [show (String.mk (natRepr n)).data = natRepr n from rfl]
  rw [encode_ascii (natRepr n) (by
    intro c hc
    have := natRepr_char_digit n c hc
    omega)]
  exact natRepr_toNat n

/-- Python `int` reads back a decimal rendering. -/
theorem pyInt_natRepr (n : Nat) : pyInt (natReprStr n) = .ok n := by
  rw [pyInt]
  rw [show (natReprStr n).data = natRepr n from rfl]
  have hstrip : pyStrip (natRepr n) = natRepr n := by
    have := pyStrip_ws_prefix [] (natRepr n) (by simp) (fun c hc => natRepr_not_space n c hc)
    simpa using this
  rw [hstrip]
  rcases hsh : natRepr n with _ | ⟨c, rest⟩
  · exact absurd hsh (natRepr_ne_nil n)
  · have hcd : 48 ≤ c.toNat ∧ c.toNat ≤ 57 := natRepr_char_digit n c (by rw [hsh]; simp)
    have hminus : ¬ (c = '-') := by
      rw [char_eq_iff_toNat]
      intro hcon
      rw [show ('-' : Char).toNat = 45 from rfl] at hcon
      omega
    have hplus : ¬ (c = '+') := by
      rw [char_eq_iff_toNat]
      intro hcon
      rw [show ('+' : Char).toNat = 43 from rfl] at hcon
      omega
    simp only [if_neg hminus, if_neg hplus]
    rw [if_pos (by
      rw [Bool.and_eq_true]
      refine ⟨by simp, ?_⟩
      rw [List.all_eq_true]
      intro a ha
      have := natRepr_char_digit n a (by rw [hsh]; simpa using ha)
      simp only [isDigitChar, Bool.and_eq_true, decide_eq_true_eq]
      omega)]
    rw [show (c :: rest).map Char.toNat = (natRepr n).map Char.toNat from by rw [hsh]]
    rw [natRepr_toNat, parseDigits_natDigits n n le_rfl]
    simp

/-- Stripping a line starting with a non-space character and ending in a
nonempty whitespace-free block followed by trailing whitespace. -/
theorem pyStrip_mid (x : Char) (mid tl ws : List Char)
    (hx : isPySpace x = false) (htl : ∀ c ∈ tl, isPySpace c = false) (htlne : tl ≠ [])
    (hws : ∀ c ∈ ws, isPySpace c = true) :
    pyStrip ((x :: mid ++ tl) ++ ws) = x :: mid ++ tl := by
  rw [pyStrip]
  rw [show ((x :: mid ++ tl) ++ ws : List Char) = x :: (mid ++ tl ++ ws) from by simp]
  rw [List.dropWhile_cons, if_neg (by simp [hx])]
  rw [show (x :: (mid ++ tl ++ ws)).reverse
      = ws.reverse ++ (tl.reverse ++ (mid.reverse ++ [x])) from by simp]
  rw [dropWhile_all_append _ _ _ (by
    intro c hc
    exact hws c (by simpa using hc))]
  rcases htr : tl.reverse with _ | ⟨c, cr⟩
  · exact absurd (by simpa using congrArg List.reverse htr) htlne
  · rw [show (c :: cr) ++ (mid.reverse ++ [x]) = c :: (cr ++ (mid.reverse ++ [x])) from rfl]
    rw [List.dropWhile_cons, if_neg (by
      simp only [Bool.not_eq_true]
      exact (by
        have hcm : c ∈ tl := by
          rw [← List.mem_reverse, htr]
          simp
        simp [htl c hcm]))]
    rw [show (c :: (cr ++ (mid.reverse ++ [x]))).reverse
        = ((x :: mid) ++ (c :: cr).reverse) from by simp]
    rw [← htr]
    simp

/-! ### C7: the content-length boundary -/

/-- The decimal rendering viewed back as a character list. -/
theorem natReprStr_data (n : Nat) : (natReprStr n).data = natRepr n := rfl

/-- Byte-level decomposition of a GET request carrying a content-length header. -/
theorem clRequest_decomp (t : String) (n : Nat) (extra : Bytes) :
    strBytes ("GET " ++ t ++ " HTTP/1.1\r\ncontent-length: " ++ natReprStr n ++ "\r\n\r\n") ++ extra
      = strBytes ("GET " ++ t ++ " HTTP/1.1\r")
        ++ 10 :: (strBytes ("content-length: " ++ natReprStr n) ++ 13 :: 10 :: 13 :: 10 :: extra) := by
  rw [show ("GET " ++ t ++ " HTTP/1.1\r\ncontent-length: " ++ natReprStr n ++ "\r\n\r\n" : String)
      = (("GET " ++ t ++ " HTTP/1.1\r") ++ "\n")
        ++ (("content-length: " ++ natReprStr n) ++ "\r\n\r\n") from by
    apply String.ext
    simp [String.data_append]]
  rw [strBytes_append, strBytes_append (("GET " ++ t ++ " HTTP/1.1\r")) "\n",
    strBytes_append (("content-length: " ++ natReprStr n)) "\r\n\r\n"]
  rw [show strBytes "\n" = [10] from rfl, show strBytes "\r\n\r\n" = [13, 10, 13, 10] from rfl]
  simp

/-- Symbolic evaluation of `parse_core` on a GET request declaring
`content-length: n` followed by `extra` bytes of stream. -/
theorem parse_core_content_length (t : String) (n max_body_size : Nat) (extra : Bytes)
    (ht : ∀ c ∈ t.data, isPySpace c = false) :
    parse_core max_body_size
        (strBytes ("GET " ++ t ++ " HTTP/1.1\r\ncontent-length: "
          ++ natReprStr n ++ "\r\n\r\n") ++ extra)
      = if max_body_size < n then .error "AttributeError"
        else if extra.length < n then .error "IncompleteReadError"
        else .ok (.scope
          { type := "http", http_version := "HTTP/1.1", method := "GET",
            path := (url_split t).1, query_string := strBytes (url_split t).2,
            headers := [(strBytes "content-length", strBytes (natReprStr n))],
            raw_path := strBytes t, body := extra.take n }) := by
  have htns : ∀ c ∈ t.data, ¬ c = ' ' := by
    intro c hc he
    have := ht c hc
    rw [he] at this
    simp [isPySpace] at this
  have hln : ∀ c ∈ ("GET " ++ t ++ " HTTP/1.1\r").data, ¬ c = '\n' := by
    intro c hc
    simp only [String.data_append] at hc
    rcases List.mem_append.mp hc with hc1 | hc2
    · rcases List.mem_append.mp hc1 with hc3 | hc4
      · intro he
        subst he
        simp at hc3
      · intro he
        subst he
        have := ht _ hc4
        simp [isPySpace] at this
    · intro he
      subst he
      simp at hc2
  have hln2 : ∀ c ∈ ("content-length: " ++ natReprStr n).data, ¬ c = '\n' := by
    intro c hc he
    subst he
    rw [String.data_append, natReprStr_data] at hc
    rcases List.mem_append.mp hc with h | h
    · simp at h
    · have := natRepr_char_digit n _ h
      rw [show ('\n' : Char).toNat = 10 from rfl] at this
      omega
  have hrl : readline (strBytes ("GET " ++ t ++ " HTTP/1.1\r")
      ++ 10 :: (strBytes ("content-length: " ++ natReprStr n) ++ 13 :: 10 :: 13 :: 10 :: extra))
      = (strBytes ("GET " ++ t ++ " HTTP/1.1\r") ++ [10],
         strBytes ("content-length: " ++ natReprStr n) ++ 13 :: 10 :: 13 :: 10 :: extra) :=
    readline_block _ (strBytes_no_newline _ hln) _
  have hdec : utf8DecodeStr (strBytes ("GET " ++ t ++ " HTTP/1.1\r") ++ [10])
      = .ok ("GET " ++ t ++ " HTTP/1.1\r\n") := by
    rw [show (strBytes ("GET " ++ t ++ " HTTP/1.1\r") ++ [10] : Bytes)
        = strBytes (("GET " ++ t ++ " HTTP/1.1\r") ++ "\n") from by
      rw [strBytes_append ("GET " ++ t ++ " HTTP/1.1\r") "\n"]
      rfl]
    rw [utf8DecodeStr_strBytes]
    congr 1
    apply String.ext
    simp [String.data_append]
  have hstrip : pyStrip (("GET " ++ t ++ " HTTP/1.1\r\n").data)
      = ['G', 'E', 'T'] ++ ' ' :: (t.data ++ ' ' :: ['H', 'T', 'T', 'P', '/', '1', '.', '1']) := by
    have h0 := pyStrip_line 'G'
      (['E', 'T', ' '] ++ t.data ++ [' ', 'H', 'T', 'T', 'P', '/', '1', '.']) '1' ['\r', '\n']
      (by decide) (by decide) (by decide)
    rw [show ("GET " ++ t ++ " HTTP/1.1\r\n").data
        = ('G' :: (['E', 'T', ' '] ++ t.data ++ [' ', 'H', 'T', 'T', 'P', '/', '1', '.'])
            ++ ['1']) ++ ['\r', '\n'] from by simp [String.data_append]]
    rw [h0]
    simp
  have hsp : pySplit ' ' (some 2)
      (['G', 'E', 'T'] ++ ' ' :: (t.data ++ ' ' :: ['H', 'T', 'T', 'P', '/', '1', '.', '1']))
      = [['G', 'E', 'T'], t.data, ['H', 'T', 'T', 'P', '/', '1', '.', '1']] := by
    rw [pySplit_block ' ' ['G', 'E', 'T'] (by decide) _ 1]
    rw [pySplit_block ' ' t.data htns _ 0]
    rw [pySplit_exhausted]
  have hne2 : strBytes ("content-length: " ++ natReprStr n) ≠ [] := by
    rw [strBytes_append]
    intro h
    have := congrArg List.length h
    rw [List.length_append] at this
    rw [show (strBytes "content-length: ").length = 16 from rfl] at this
    simp at this
  have hdec2 : utf8DecodeStr (strBytes ("content-length: " ++ natReprStr n) ++ [13, 10])
      = .ok (("content-length: " ++ natReprStr n) ++ "\r\n") := by
    rw [show strBytes ("content-length: " ++ natReprStr n) ++ ([13, 10] : Bytes)
        = strBytes (("content-length: " ++ natReprStr n) ++ "\r\n") from by
      rw [strBytes_append (("content-length: " ++ natReprStr n)) "\r\n"]
      rfl]
    exact utf8DecodeStr_strBytes _
  have hstrip2 : pyStrip ((("content-length: " ++ natReprStr n) ++ "\r\n")).data
      = 'c' :: ("ontent-length: ".data ++ natRepr n) := by
    have h0 := pyStrip_mid 'c' ("ontent-length: ".data) (natRepr n) ['\r', '\n']
      (by decide) (natRepr_not_space n) (natRepr_ne_nil n) (by decide)
    rw [show ((("content-length: " ++ natReprStr n) ++ "\r\n")).data
        = ('c' :: ("ontent-length: ".data ++ natRepr n)) ++ ['\r', '\n'] from by
      simp [String.data_append, natReprStr_data]]
    exact h0
  have hsp2 : pySplit ':' (some 1) ('c' :: ("ontent-length: ".data ++ natRepr n))
      = ["content-length".data, ' ' :: natRepr n] := by
    rw [show ('c' :: ("ontent-length: ".data ++ natRepr n) : List Char)
        = "content-length".data ++ ':' :: (' ' :: natRepr n) from rfl]
    rw [pySplit_block ':' ("content-length".data) (by decide) _ 0]
    rw [pySplit_exhausted]
  have hdr : read_headers []
      (strBytes ("content-length: " ++ natReprStr n) ++ 13 :: 10 :: 13 :: 10 :: extra)
      = .ok ([("content-length", natReprStr n)], extra) := by
    rw [read_headers_step [] _ (13 :: 10 :: extra)
      (strBytes_no_newline _ hln2) hne2
      (("content-length: " ++ natReprStr n) ++ "\r\n") hdec2
      ("content-length".data) (' ' :: natRepr n) (by rw [hstrip2]; exact hsp2)]
    rw [read_headers_crlf]
    rw [show pyStrip (' ' :: natRepr n) = natRepr n from by
      rw [show (' ' :: natRepr n : List Char) = [' '] ++ natRepr n from rfl]
      exact pyStrip_ws_prefix [' '] (natRepr n) (by decide) (natRepr_not_space n)]
    rfl
  rw [clRequest_decomp]
  rw [parse_core]
  rw [hrl]
  rw [if_neg (by simp)]
  rw [hdec, except_bind_ok]
  dsimp only
  rw [hstrip, hsp]
  dsimp only
  rw [hdr, except_bind_ok]
  dsimp only
  rw [show dictGet [("content-length", natReprStr n)] "content-length"
      = some (natReprStr n) from by simp [dictGet]]
  dsimp only
  rw [pyInt_natRepr n, except_bind_ok]
  by_cases hbig : max_body_size < n
  · rw [if_pos (show ((n : Nat) : Int) > ((max_body_size : Nat) : Int) from by exact_mod_cast hbig)]
    rw [if_pos hbig]
    rfl
  · rw [if_neg (show ¬ ((n : Nat) : Int) > ((max_body_size : Nat) : Int) from by exact_mod_cast hbig)]
    rw [if_neg hbig]
    rw [readexactly]
    rw [if_neg (by simp)]
    rw [Int.toNat_ofNat]
    by_cases hlen : extra.length < n
    · rw [if_pos hlen, if_pos hlen]
      rfl
    · rw [if_neg hlen, if_neg hlen]
      rw [except_bind_ok]
      rfl

/-- C7 (code bug): the content-length value is parsed as a (non-negative)
integer, a declared length exactly equal to the configured maximum succeeds
with exactly that many body bytes read, and a declared length one over the
maximum is refused before any body bytes are read — the refusal holds for
every trailing stream `extra`, including the empty one, so no body bytes are
required or consumed.  However, the refusal does not produce the claimed 400
response: the 400 attempt calls `decode` on its default str body and raises
`AttributeError`, which escapes, so the connection crashes with nothing
written. -/
theorem C7_content_length_boundary (t : String) (max_body_size : Nat) (extra : Bytes)
    (ht : ∀ c ∈ t.data, isPySpace c = false) :
    (∀ m : Nat, pyInt (natReprStr m) = .ok (m : Int))
    ∧ (max_body_size ≤ extra.length →
      parse_http_request max_body_size
          (strBytes ("GET " ++ t ++ " HTTP/1.1\r\ncontent-length: "
            ++ natReprStr max_body_size ++ "\r\n\r\n") ++ extra)
        = .ok (.scope
            { type := "http", http_version := "HTTP/1.1", method := "GET",
              path := (url_split t).1, query_string := strBytes (url_split t).2,
              headers := [(strBytes "content-length", strBytes (natReprStr max_body_size))],
              raw_path := strBytes t, body := extra.take max_body_size }))
    ∧ parse_http_request max_body_size
          (strBytes ("GET " ++ t ++ " HTTP/1.1\r\ncontent-length: "
            ++ natReprStr (max_body_size + 1) ++ "\r\n\r\n") ++ extra)
        = .error "AttributeError"
    ∧ ∀ router : RouterT,
        handle_request router max_body_size
            (strBytes ("GET " ++ t ++ " HTTP/1.1\r\ncontent-length: "
              ++ natReprStr (max_body_size + 1) ++ "\r\n\r\n") ++ extra)
          = .crashed "AttributeError" := by
  have hover : parse_http_request max_body_size
      (strBytes ("GET " ++ t ++ " HTTP/1.1\r\ncontent-length: "
        ++ natReprStr (max_body_size + 1) ++ "\r\n\r\n") ++ extra)
      = .error "AttributeError" := by
    have h := parse_core_content_length t (max_body_size + 1) max_body_size extra ht
    rw [if_pos (by omega)] at h
    rw [parse_http_request, h]
    rfl
  refine ⟨pyInt_natRepr, ?_, hover, ?_⟩
  · intro hle
    have h := parse_core_content_length t max_body_size max_body_size extra ht
    rw [if_neg (by omega), if_neg (by omega)] at h
    rw [parse_http_request, h]
  · intro router
    rw [handle_request, hover]

/-- Witness for C7: at `max_body_size = 2` with three trailing stream bytes,
the declared length 2 succeeds reading exactly `[65, 66]`, while the declared
length 3 crashes with `AttributeError` instead of a 400. -/
theorem C7_content_length_boundary_witness :
    (∀ c ∈ ("/" : String).data, isPySpace c = false)
    ∧ parse_http_request 2
        (strBytes ("GET " ++ "/" ++ " HTTP/1.1\r\ncontent-length: "
          ++ natReprStr 2 ++ "\r\n\r\n") ++ [65, 66, 67])
      = .ok (.scope
          { type := "http", http_version := "HTTP/1.1", method := "GET",
            path := (url_split "/").1, query_string := strBytes (url_split "/").2,
            headers := [(strBytes "content-length", strBytes (natReprStr 2))],
            raw_path := strBytes "/", body := [65, 66] })
    ∧ parse_http_request 2
        (strBytes ("GET " ++ "/" ++ " HTTP/1.1\r\ncontent-length: "
          ++ natReprStr 3 ++ "\r\n\r\n") ++ [65, 66, 67])
      = .error "AttributeError"
    ∧ handle_request [] 2
        (strBytes ("GET " ++ "/" ++ " HTTP/1.1\r\ncontent-length: "
          ++ natReprStr 3 ++ "\r\n\r\n") ++ [65, 66, 67])
      = .crashed "AttributeError" := by
  have h := C7_content_length_boundary "/" 2 [65, 66, 67] (by decide)
  exact ⟨by decide, h.2.1 (by decide), h.2.2.1, h.2.2.2 []⟩

/-! ### C8: target splitting and the missing percent-decode -/

/-- Remove one trailing CRLF (or bare LF) from a line, as a generic HTTP
message reader does before interpreting it. -/
def chopCRLF (bs : Bytes) : Bytes :=
  if bs.reverse.take 2 = [10, 13] then (bs.reverse.drop 2).reverse
  else if bs.reverse.take 1 = [10] then (bs.reverse.drop 1).reverse
  else bs

/-- Chopping a line that ends in CRLF removes exactly the CRLF. -/
theorem chopCRLF_crlf (xs : Bytes) : chopCRLF (xs ++ [13, 10]) = xs := by
  have hrev : (xs ++ [13, 10]).reverse = 10 :: 13 :: xs.reverse := by simp
  rw [chopCRLF, hrev]
  rw [if_pos (show List.take 2 (10 :: 13 :: xs.reverse) = [10, 13] from rfl)]
  simp

/-- Modelled from the spec's words, not from the source: the header section of
a generic HTTP/1.1 message — `Name: value` lines up to the first empty line,
names taken verbatim, values with leading spaces dropped; returns the headers
in order together with the remaining bytes (the body). -/
def spec_parse_headers (input : Bytes) :
    Option (List (String × String) × Bytes) :=
  let p := readline input
  if hstop : p.1 = [] ∨ p.1 = [13, 10] then some ([], p.2)
  else
    match utf8Decode (chopCRLF p.1) with
    | none => none
    | some cs =>
      match splitFirst ':' cs with
      | none => none
      | some kv =>
        match spec_parse_headers p.2 with
        | none => none
        | some pr =>
          some ((String.mk kv.1, String.mk (kv.2.dropWhile (fun c => c = ' '))) :: pr.1, pr.2)
termination_by input.length
decreasing_by
  have h := readline_length input
  have hne : (readline input).1 ≠ [] := fun h0 => hstop (Or.inl h0)
  have hlen : (readline input).1.length ≠ 0 := by
    intro hl
    exact hne (List.eq_nil_of_length_eq_zero hl)
  omega

/-- Modelled from the spec's words, not from the source: parse bytes as a
generic HTTP/1.1 message — a status line `HTTP/1.1 <code> <reason>`, header
lines up to the first empty line, and everything after it as the body.
Returns the status code, the reason phrase, the headers and the body bytes. -/
def spec_parse_message (input : Bytes) :
    Option (Nat × String × List (String × String) × Bytes) :=
  let p := readline input
  match utf8Decode (chopCRLF p.1) with
  | none => none
  | some cs =>
    match pySplit ' ' (some 2) cs with
    | [ver, code, reason] =>
      if ver = "HTTP/1.1".data ∧ code ≠ [] ∧ code.all isDigitChar then
        match spec_parse_headers p.2 with
        | none => none
        | some pr =>
          some (parseDigits 0 (code.map Char.toNat), String.mk reason, pr.1, pr.2)
      else none
    | _ => none

/-- The byte stream a serialized response carries after the status line's
CRLF: the header lines, the empty line, then the body. -/
def headerBlock : List (String × String) → String → Bytes
  | [], s => 13 :: 10 :: strBytes s
  | kv :: rest, s => strBytes (kv.1 ++ ": " ++ kv.2) ++ 13 :: 10 :: headerBlock rest s

/-- Splitting at the first separator occurrence finds a separator-free prefix. -/
theorem splitFirst_block (sep : Char) (a : List Char) (ha : ∀ c ∈ a, ¬ c = sep)
    (b : List Char) : splitFirst sep (a ++ sep :: b) = some (a, b) := by
  induction a with
  | nil =>
    rw [show ([] : List Char) ++ sep :: b = sep :: b from rfl]
    rw [splitFirst, if_pos rfl]
  | cons c a' ih =>
    rw [show (c :: a') ++ sep :: b = c :: (a' ++ sep :: b) from rfl]
    rw [splitFirst, if_neg (ha c (by simp))]
    rw [ih (fun c hc => ha c (by simp [hc]))]
    rfl

/-- The header-section equation of the generic message parser: an empty line
terminates the section. -/
theorem spec_parse_headers_crlf (rest : Bytes) :
    spec_parse_headers (13 :: 10 :: rest) = some ([], rest) := by
  rw [spec_parse_headers]
  rw [show readline (13 :: 10 :: rest) = ([13, 10], rest) from by
    rw [show (13 : Nat) :: 10 :: rest = [13] ++ 10 :: rest from rfl]
    exact readline_block [13] (by simp) rest]
  rw [dif_pos (Or.inr rfl)]

/-- The header-section equation of the generic message parser: one header line
is consumed, its name taken verbatim and its value's leading spaces dropped. -/
theorem spec_parse_headers_step (bs rest : Bytes)
    (hno10 : ∀ b ∈ bs, ¬ b = 10) (hne : bs ≠ [])
    (cs : List Char) (hdec : utf8Decode bs = some cs)
    (k v : List Char) (hsplit : splitFirst ':' cs = some (k, v))
    (hsRest : List (String × String)) (rest2 : Bytes)
    (htail : spec_parse_headers rest = some (hsRest, rest2)) :
    spec_parse_headers (bs ++ 13 :: 10 :: rest)
      = some ((String.mk k, String.mk (v.dropWhile (fun c => c = ' '))) :: hsRest, rest2) := by
  have hrl : readline (bs ++ 13 :: 10 :: rest) = (bs ++ [13, 10], rest) := by
    rw [show bs ++ 13 :: 10 :: rest = (bs ++ [13]) ++ 10 :: rest from by simp]
    rw [readline_block (bs ++ [13]) (by
      intro b hb
      rcases List.mem_append.mp hb with h | h
      · exact hno10 b h
      · simp at h
        omega) rest]
    simp
  rw [spec_parse_headers]
  rw [hrl]
  rw [dif_neg (by
    rintro (h | h)
    · exact hne (by simpa using h)
    · have hlenb : bs.length = 0 := by
        have := congrArg List.length h
        simp only [List.length_append, List.length_cons, List.length_nil] at this
        omega
      exact hne (List.eq_nil_of_length_eq_zero hlenb))]
  rw [show chopCRLF (bs ++ [13, 10]) = bs from chopCRLF_crlf bs]
  rw [hdec]
  dsimp only
  rw [hsplit]
  dsimp only
  rw [htail]

/-- The generic parser recovers a serialized header section verbatim: names
without colons or line breaks, values without line breaks or leading spaces. -/
theorem spec_parse_headers_headerBlock (s : String) (hs : List (String × String))
    (hok : ∀ kv ∈ hs,
      (∀ c ∈ kv.1.data, ¬ c = ':' ∧ ¬ c = '\n' ∧ ¬ c = '\r')
      ∧ (∀ c ∈ kv.2.data, ¬ c = '\n' ∧ ¬ c = '\r')
      ∧ kv.2.data.dropWhile (fun c => c = ' ') = kv.2.data) :
    spec_parse_headers (headerBlock hs s) = some (hs, strBytes s) := by
  induction hs with
  | nil => exact spec_parse_headers_crlf (strBytes s)
  | cons kv rest ih =>
    have hkv := hok kv (by simp)
    have htail := ih (fun kv hm => hok kv (by simp [hm]))
    rw [headerBlock]
    rw [spec_parse_headers_step (strBytes (kv.1 ++ ": " ++ kv.2)) (headerBlock rest s)
      (by
        intro b hb hb10
        subst hb10
        obtain ⟨c, hc, hcn⟩ := mem_strBytes_low _ 10 (by norm_num) hb
        have hcnl : c = '\n' := by
          have := congrArg Char.ofNat hcn
          rwa [Char.ofNat_toNat] at this
        subst hcnl
        simp only [String.data_append] at hc
        rcases List.mem_append.mp hc with hc1 | hc2
        · rcases List.mem_append.mp hc1 with hc3 | hc4
          · exact (hkv.1 _ hc3).2.1 rfl
          · simp at hc4
        · exact (hkv.2.1 _ hc2).1 rfl)
      (by
        intro h
        have := congrArg List.length h
        rw [strBytes_append, strBytes_append] at this
        simp only [List.length_append, List.length_nil,
          show (strBytes ": ").length = 2 from rfl] at this
        omega)
      ((kv.1 ++ ": " ++ kv.2).data) (utf8Decode_strBytes _)
      kv.1.data (' ' :: kv.2.data)
      (by
        rw [show ((kv.1 ++ ": " ++ kv.2).data)
            = kv.1.data ++ ':' :: (' ' :: kv.2.data) from by
          simp [String.data_append]]
        exact splitFirst_block ':' kv.1.data (fun c hc => (hkv.1 c hc).1) (' ' :: kv.2.data))
      rest (strBytes s) htail]
    rw [show List.dropWhile (fun c => c = ' ') (' ' :: kv.2.data)
        = kv.2.data from by
      rw [List.dropWhile_cons]
      rw [if_pos (by simp)]
      exact hkv.2.2]

/-- Byte-level shape of the serialized response text: the status line, CRLF,
then the header lines, the empty line and the body. -/
theorem wire_decomp (s : String) (hs : List (String × String)) :
    ∀ status : String,
      strBytes (String.intercalate "\r\n"
          (status :: (hs.map (fun kv => kv.1 ++ ": " ++ kv.2) ++ ["", s])))
        = strBytes status ++ 13 :: 10 :: headerBlock hs s := by
  induction hs with
  | nil =>
    intro status
    rw [show String.intercalate "\r\n" (status :: (([] : List (String × String)).map
          (fun kv => kv.1 ++ ": " ++ kv.2) ++ ["", s]))
        = String.intercalate.go status "\r\n" ["", s] from rfl]
    rw [String.intercalate.go, String.intercalate.go, String.intercalate.go]
    rw [strBytes_append, strBytes_append, strBytes_append, strBytes_append]
    rw [show strBytes "\r\n" = [13, 10] from rfl, show strBytes "" = [] from rfl]
    rw [headerBlock]
    simp
  | cons kv rest ih =>
    intro status
    rw [show String.intercalate "\r\n" (status :: ((kv :: rest).map
          (fun kv => kv.1 ++ ": " ++ kv.2) ++ ["", s]))
        = String.intercalate.go status "\r\n" ((kv.1 ++ ": " ++ kv.2)
            :: (rest.map (fun kv => kv.1 ++ ": " ++ kv.2) ++ ["", s])) from rfl]
    rw [String.intercalate.go]
    rw [show String.intercalate.go (status ++ "\r\n" ++ (kv.1 ++ ": " ++ kv.2)) "\r\n"
          (rest.map (fun kv => kv.1 ++ ": " ++ kv.2) ++ ["", s])
        = String.intercalate "\r\n" ((status ++ "\r\n" ++ (kv.1 ++ ": " ++ kv.2))
            :: (rest.map (fun kv => kv.1 ++ ": " ++ kv.2) ++ ["", s])) from rfl]
    rw [ih (status ++ "\r\n" ++ (kv.1 ++ ": " ++ kv.2))]
    rw [strBytes_append, strBytes_append]
    rw [show strBytes "\r\n" = [13, 10] from rfl]
    rw [headerBlock]
    simp

/-- The serializer's output on a response dictionary whose body bytes are the
encoding of a string: the joined status line, header lines and decoded body,
re-encoded. -/
theorem send_http_response_some (code : Nat) (reason : String)
    (hs : List (String × String)) (s : String) :
    send_http_response code reason (some hs) (.bbytes (strBytes s))
      = .ok (strBytes (String.intercalate "\r\n"
          (statusLine code reason
            :: (hs.map (fun kv => kv.1 ++ ": " ++ kv.2) ++ ["", s])))) := by
  rw [send_http_response]
  dsimp only
  rw [utf8DecodeStr_strBytes]
  rfl

/-- The generic message parser on a serialized status line followed by a
well-formed header section: the status code and reason phrase are recovered. -/
theorem spec_parse_status (n : Nat) (reason : String) (T : Bytes)
    (hr : ∀ c ∈ reason.data, ¬ c = '\n')
    (hsVal : List (String × String)) (B : Bytes)
    (hT : spec_parse_headers T = some (hsVal, B)) :
    spec_parse_message (strBytes (statusLine n reason) ++ 13 :: 10 :: T)
      = some (n, reason, hsVal, B) := by
  have hdig : ∀ c ∈ natRepr n, ¬ c = ' ' := by
    intro c hc he
    have := natRepr_char_digit n c hc
    rw [he, show (' ' : Char).toNat = 32 from rfl] at this
    omega
  have hno10 : ∀ b ∈ strBytes (statusLine n reason), ¬ b = 10 := by
    apply strBytes_no_newline
    intro c hc he
    subst he
    rw [statusLine] at hc
    simp only [String.data_append, natReprStr_data] at hc
    rcases List.mem_append.mp hc with hc1 | hc2
    · rcases List.mem_append.mp hc1 with hc3 | hc4
      · rcases List.mem_append.mp hc3 with hc5 | hc6
        · simp at hc5
        · have := natRepr_char_digit n _ hc6
          rw [show ('\n' : Char).toNat = 10 from rfl] at this
          omega
      · simp at hc4
    · exact hr _ hc2 rfl
  have hrl : readline (strBytes (statusLine n reason) ++ 13 :: 10 :: T)
      = (strBytes (statusLine n reason) ++ [13, 10], T) := by
    rw [show strBytes (statusLine n reason) ++ 13 :: 10 :: T
        = (strBytes (statusLine n reason) ++ [13]) ++ 10 :: T from by simp]
    rw [readline_block (strBytes (statusLine n reason) ++ [13]) (by
      intro b hb
      rcases List.mem_append.mp hb with h | h
      · exact hno10 b h
      · simp at h
        omega) T]
    simp
  rw [spec_parse_message]
  rw [hrl]
  dsimp only
  rw [chopCRLF_crlf]
  rw [utf8Decode_strBytes]
  dsimp only
  rw [show (statusLine n reason).data
      = "HTTP/1.1".data ++ ' ' :: (natRepr n ++ ' ' :: reason.data) from by
    rw [statusLine]
    simp [String.data_append, natReprStr_data]]
  rw [pySplit_block ' ' ("HTTP/1.1".data) (by decide) _ 1]
  rw [pySplit_block ' ' (natRepr n) hdig _ 0]
  rw [pySplit_exhausted]
  dsimp only
  rw [if_pos ⟨rfl, natRepr_ne_nil n, by
    rw [List.all_eq_true]
    intro c hc
    have := natRepr_char_digit n c hc
    simp only [isDigitChar, Bool.and_eq_true, decide_eq_true_eq]
    omega⟩]
  rw [hT]
  dsimp only
  rw [natRepr_toNat, parseDigits_natDigits n n le_rfl]

/-- C9 (corrected): serializing a Response whose body bytes are valid UTF-8
(every str, dict or list body yields such bytes) over the wire path the server
uses — `send_http_response(**response)` with the Response's own headers — and
re-parsing the produced bytes as a generic HTTP message recovers the same
status code, the same reason phrase, the same headers in order (in particular
Content-Length), and the same body bytes, provided the header names contain no
colon or line break, and header values and the reason phrase contain no line
break and no leading spaces in values. -/
theorem C9_serialize_reparse_roundtrip (resp : Response) (bodyStr : String)
    (hbody : resp.body = strBytes bodyStr)
    (hreason : ∀ c ∈ resp.reason_phrase.data, ¬ c = '\n')
    (hok : ∀ kv ∈ resp.headers,
      (∀ c ∈ kv.1.data, ¬ c = ':' ∧ ¬ c = '\n' ∧ ¬ c = '\r')
      ∧ (∀ c ∈ kv.2.data, ¬ c = '\n' ∧ ¬ c = '\r')
      ∧ kv.2.data.dropWhile (fun c => c = ' ') = kv.2.data) :
    ∃ wire : Bytes,
      send_http_response resp.status_code resp.reason_phrase
          (some resp.headers) (.bbytes resp.body) = .ok wire
      ∧ spec_parse_message wire
        = some (resp.status_code, resp.reason_phrase, resp.headers, resp.body) := by
  have hsend := send_http_response_some resp.status_code resp.reason_phrase
    resp.headers bodyStr
  rw [← hbody] at hsend
  refine ⟨_, hsend, ?_⟩
  rw [wire_decomp bodyStr resp.headers (statusLine resp.status_code resp.reason_phrase)]
  rw [hbody]
  exact spec_parse_status resp.status_code resp.reason_phrase
    (headerBlock resp.headers bodyStr) hreason resp.headers (strBytes bodyStr)
    (spec_parse_headers_headerBlock bodyStr resp.headers hok)

/-- Counterexample to the universal quantification of C9: a Response carrying
raw non-UTF-8 body bytes (here the single byte 255, which the constructor's
bytes branch passes through unchanged) cannot be serialized at all — the
serializer's `body.decode()` raises `UnicodeDecodeError` — so there are no
wire bytes to re-parse and the round trip fails. -/
theorem C9_roundtrip_counterexample :
    (Response.init (.pbytes [255]) 200 "OK" none "text/plain").body = [255]
    ∧ send_http_response 200 "OK"
        (some (Response.init (.pbytes [255]) 200 "OK" none "text/plain").headers)
        (.bbytes (Response.init (.pbytes [255]) 200 "OK" none "text/plain").body)
      = .error "UnicodeDecodeError" := ⟨rfl, rfl⟩

/-- Witness for C9: a 200 response with body `hi` and explicit headers
serializes and re-parses to the same status, reason, headers and body. -/
theorem C9_serialize_reparse_roundtrip_witness :
    ∃ wire : Bytes,
      send_http_response 200 "OK"
          (some [("Content-Type", "text/plain"), ("Content-Length", "2")])
          (.bbytes (strBytes "hi")) = .ok wire
      ∧ spec_parse_message wire
        = some (200, "OK", [("Content-Type", "text/plain"), ("Content-Length", "2")],
            strBytes "hi") :=
  C9_serialize_reparse_roundtrip
    { body := strBytes "hi", status_code := 200, reason_phrase := "OK",
      headers := [("Content-Type", "text/plain"), ("Content-Length", "2")],
      content_type := "text/plain" } "hi" rfl (by decide) (by decide)

end WebServer
